import Mathlib

/-!
# Verification of the keymaster `KeyBlob` codec (`key_blob.cpp`)

Shallow embedding of `KeyBlob::Serialize`, `KeyBlob::Deserialize`,
`KeyBlob::DeserializeUnversionedBlob`, `KeyBlob::SerializedSize`,
`KeyBlob::SetEncryptedKey` and `KeyBlob::ExtractKeyCharacteristics`.

Buffers are modelled as `List Nat` of byte values; the read cursor of the
source (`const uint8_t** buf_ptr` advancing towards `end`) is modelled by
consuming a prefix of the list.  The object (`class KeyBlob`) is a record of
its member fields, and each member function threads that record explicitly,
mirroring the source's mutation order, so that partially committed fields of
a failed parse attempt are observable exactly as in the source.
-/

namespace Keymaster

/-- Modelled from the spec: the error kinds of §7 (sticky status field), named
after the keymaster error codes used in `key_blob.cpp`; the definitions of the
codes live in `keymaster_defs.h`, which is not part of the sources. -/
inductive KError where
  | KM_ERROR_OK
  | KM_ERROR_INVALID_KEY_BLOB
  | KM_ERROR_MEMORY_ALLOCATION_FAILED
  | KM_ERROR_UNSUPPORTED_ALGORITHM
  | KM_ERROR_UNSUPPORTED_KEY_SIZE
deriving DecidableEq, Repr

/-- Modelled from the spec: `KeyBlob::NONCE_LENGTH` is declared in
`key_blob.h` (not among the sources); §8's scenario ("nonce = 12 zero bytes")
fixes it to 12. -/
def NONCE_LENGTH : Nat := 12

/-- Modelled from the spec: `KeyBlob::TAG_LENGTH` is declared in `key_blob.h`
(not among the sources); §8's scenario ("tag = 16 zero bytes") fixes it
to 16. -/
def TAG_LENGTH : Nat := 16

/-- `const uint8_t BLOB_VERSION = 0;` (key_blob.cpp line 42). -/
def BLOB_VERSION : Nat := 0

/-- Modelled from the spec: the ALGORITHM attribute identifier
(`TAG_ALGORITHM` of `keymaster_defs.h`, not among the sources).  Only its
value as a 32-bit-representable identifier distinct from `TAG_KEY_SIZE`
matters here. -/
def TAG_ALGORITHM : Nat := 268435458

/-- Modelled from the spec: the KEY_SIZE attribute identifier
(`TAG_KEY_SIZE` of `keymaster_defs.h`, not among the sources). -/
def TAG_KEY_SIZE : Nat := 805306371

/-- Modelled from the spec (§6, §9): the 4-byte little-endian encoding of a
length field, the fixed-width 32-bit wire representation chosen by the
buffer-copy collaborator (`google_keymaster_utils.h`, not among the sources).
A `Nat` is encoded modulo `2^32`, as a C cast to `uint32_t` does. -/
def enc32 (n : Nat) : List Nat :=
  [n % 256, n / 256 % 256, n / 65536 % 256, n / 16777216 % 256]

/-- Value of four little-endian bytes. -/
def dec4 (a b c d : Nat) : Nat := a + 256 * b + 65536 * c + 16777216 * d

/-- Modelled from the spec (§6): `copy_from_buf(buf_ptr, end, dest, size)` —
reads exactly `n` raw bytes, returns `none` (C `false`) without advancing when
fewer than `n` bytes remain. -/
def copy_from_buf (n : Nat) (l : List Nat) : Option (List Nat × List Nat) :=
  if n ≤ l.length then some (l.take n, l.drop n) else none

/-- Modelled from the spec (§6): reading one 4-byte little-endian length
field; fails without advancing when fewer than 4 bytes remain. -/
def copy_uint32_from_buf (l : List Nat) : Option (Nat × List Nat) :=
  match l with
  | a :: b :: c :: d :: r => some (dec4 a b c d, r)
  | _ => none

/-- Modelled from the spec (§6): `copy_size_and_data_from_buf` — reads a
4-byte length `n`, then `n` bytes of data, returning `(n, data, rest)`;
returns `none` (C `false`) on any bound failure, without advancing and
without writing its outputs. -/
def copy_size_and_data_from_buf (l : List Nat) : Option (Nat × List Nat × List Nat) :=
  match copy_uint32_from_buf l with
  | none => none
  | some (n, r) => if n ≤ r.length then some (n, r.take n, r.drop n) else none

/-- Modelled from the spec (§6): the policy-set collaborator
(`AuthorizationSet`, not among the sources) as a list of (attribute id,
value) pairs. -/
structure AuthorizationSet where
  entries : List (Nat × Nat)
deriving DecidableEq, Repr

/-- One serialized policy entry: attribute id then value, 4 bytes each. -/
def encEntry (e : Nat × Nat) : List Nat := enc32 e.1 ++ enc32 e.2

/-- Modelled from the spec (§6): the self-describing serialization of a
policy set — an entry count followed by the entries. -/
def AuthorizationSet.encoding (s : AuthorizationSet) : List Nat :=
  enc32 s.entries.length ++ (s.entries.map encEntry).flatten

/-- Modelled from the spec (§6): `AuthorizationSet::SerializedSize`. -/
def AuthorizationSet.SerializedSize (s : AuthorizationSet) : Nat :=
  4 + 8 * s.entries.length

/-- Modelled from the spec (§6): `AuthorizationSet::GetTagValue` — the first
entry carrying the requested attribute id, if any. -/
def AuthorizationSet.GetTagValue (s : AuthorizationSet) (t : Nat) : Option Nat :=
  (s.entries.find? (fun e => e.1 == t)).map (fun e => e.2)

/-- Decode `k` serialized policy entries; fails when the buffer runs out. -/
def decEntries : Nat → List Nat → Option (List (Nat × Nat) × List Nat)
  | 0, l => some ([], l)
  | k + 1, a :: b :: c :: d :: e :: f :: g :: h :: r =>
    match decEntries k r with
    | some (es, rest) => some ((dec4 a b c d, dec4 e f g h) :: es, rest)
    | none => none
  | _ + 1, _ => none

/-- Modelled from the spec (§6): `AuthorizationSet::Deserialize` — reads the
entry count, then that many entries; fails (C `false`) when the buffer is
exhausted first. -/
def AuthorizationSet.deserialize (l : List Nat) : Option (AuthorizationSet × List Nat) :=
  match copy_uint32_from_buf l with
  | none => none
  | some (n, r) =>
    match decEntries n r with
    | some (es, rest) => some (⟨es⟩, rest)
    | none => none

/-- Wire representability of a policy set: the entry count and every
attribute id and value fit the 4-byte length fields of the encoding. -/
def AuthorizationSet.wf (s : AuthorizationSet) : Prop :=
  s.entries.length < 4294967296 ∧
    ∀ e ∈ s.entries, e.1 < 4294967296 ∧ e.2 < 4294967296

instance (s : AuthorizationSet) : Decidable s.wf := by
  unfold AuthorizationSet.wf; infer_instance

/-- The member fields of `class KeyBlob`.  The three owned byte buffers are
`Option (List Nat)` (`none` models a null `UniquePtr`). -/
structure KeyBlob where
  nonce_ : Option (List Nat)
  key_material_length_ : Nat
  encrypted_key_material_ : Option (List Nat)
  tag_ : Option (List Nat)
  enforced_ : AuthorizationSet
  unenforced_ : AuthorizationSet
  algorithm_ : Nat
  key_size_bits_ : Nat
  error_ : KError
deriving DecidableEq, Repr

/-- The constructor `KeyBlob(const AuthorizationSet& enforced, const
AuthorizationSet& unenforced)` (key_blob.cpp lines 123-125): buffers null,
error `KM_ERROR_OK`.  `key_material_length_` is left uninitialized by the
source; the model fixes it to 0 (no claim depends on its initial value). -/
def KeyBlob.ofAuthSets (enforced unenforced : AuthorizationSet) : KeyBlob :=
  { nonce_ := none, key_material_length_ := 0, encrypted_key_material_ := none,
    tag_ := none, enforced_ := enforced, unenforced_ := unenforced,
    algorithm_ := 0, key_size_bits_ := 0, error_ := KError.KM_ERROR_OK }

/-- The field state of a freshly built empty `KeyBlob` (both policy sets
default-constructed empty), as the byte-range constructors produce before
calling `Deserialize`. -/
def KeyBlob.init : KeyBlob := KeyBlob.ofAuthSets ⟨[]⟩ ⟨[]⟩

/-- `KeyBlob::SetEncryptedKey` (key_blob.cpp lines 127-134): releases the
owned buffers, then adopts the three new buffers and the ciphertext
length. -/
def KeyBlob.SetEncryptedKey (σ : KeyBlob) (encrypted_key_material : List Nat)
    (encrypted_key_material_length : Nat) (nonce tag : List Nat) : KeyBlob :=
  { σ with encrypted_key_material_ := some encrypted_key_material,
           key_material_length_ := encrypted_key_material_length,
           nonce_ := some nonce, tag_ := some tag }

/-- `KeyBlob::SerializedSize` (key_blob.cpp lines 36-40). -/
def KeyBlob.SerializedSize (σ : KeyBlob) : Nat :=
  1 + 4 + NONCE_LENGTH + 4 + σ.key_material_length_ + 4 + TAG_LENGTH +
    σ.enforced_.SerializedSize + σ.unenforced_.SerializedSize

/-- `KeyBlob::ExtractKeyCharacteristics` (key_blob.cpp lines 136-148), second
half: the KEY_SIZE lookup, enforced first. -/
def KeyBlob.extractKeySize (σ : KeyBlob) : KeyBlob × Bool :=
  match σ.enforced_.GetTagValue TAG_KEY_SIZE with
  | some v => ({σ with key_size_bits_ := v}, true)
  | none =>
    match σ.unenforced_.GetTagValue TAG_KEY_SIZE with
    | some v => ({σ with key_size_bits_ := v}, true)
    | none => ({σ with error_ := KError.KM_ERROR_UNSUPPORTED_KEY_SIZE}, false)

/-- `KeyBlob::ExtractKeyCharacteristics` (key_blob.cpp lines 136-148):
ALGORITHM looked up in `enforced_` then `unenforced_`, failing with
`KM_ERROR_UNSUPPORTED_ALGORITHM`; then KEY_SIZE likewise, failing with
`KM_ERROR_UNSUPPORTED_KEY_SIZE`. -/
def KeyBlob.ExtractKeyCharacteristics (σ : KeyBlob) : KeyBlob × Bool :=
  match σ.enforced_.GetTagValue TAG_ALGORITHM with
  | some v => KeyBlob.extractKeySize {σ with algorithm_ := v}
  | none =>
    match σ.unenforced_.GetTagValue TAG_ALGORITHM with
    | some v => KeyBlob.extractKeySize {σ with algorithm_ := v}
    | none => ({σ with error_ := KError.KM_ERROR_UNSUPPORTED_ALGORITHM}, false)

/-- The canonical (version-0) parse attempt: the `||` chain of
`KeyBlob::Deserialize` (key_blob.cpp lines 58-68), with the version byte
already split off by the caller.  Fields are committed in source order as the
reads succeed (`&nonce_`, `&key_material_length_`/`&encrypted_key_material_`,
`&tag_`, `enforced_.Deserialize`, `unenforced_.Deserialize`), so a failing
attempt returns the partially mutated object, exactly as the source leaves
its members. -/
def KeyBlob.canonicalAttempt (σ : KeyBlob) (version : Nat) (r0 : List Nat) :
    KeyBlob × Bool :=
  if version ≠ BLOB_VERSION then (σ, false) else
  match copy_size_and_data_from_buf r0 with
  | none => (σ, false)
  | some (nonce_length, nb, r1) =>
    let σ1 : KeyBlob := {σ with nonce_ := some nb}
    if nonce_length ≠ NONCE_LENGTH then (σ1, false) else
    match copy_size_and_data_from_buf r1 with
    | none => (σ1, false)
    | some (kml, kb, r2) =>
      let σ2 : KeyBlob :=
        {σ1 with key_material_length_ := kml, encrypted_key_material_ := some kb}
      match copy_size_and_data_from_buf r2 with
      | none => (σ2, false)
      | some (tag_length, tb, r3) =>
        let σ3 : KeyBlob := {σ2 with tag_ := some tb}
        if tag_length ≠ TAG_LENGTH then (σ3, false) else
        match AuthorizationSet.deserialize r3 with
        | none => (σ3, false)
        | some (es, r4) =>
          let σ4 : KeyBlob := {σ3 with enforced_ := es}
          match AuthorizationSet.deserialize r4 with
          | none => (σ4, false)
          | some (us, _) => ({σ4 with unenforced_ := us}, true)

/-- `KeyBlob::DeserializeUnversionedBlob` (key_blob.cpp lines 103-121).  The
`new uint8_t[...]` allocations of the source are modelled as always
succeeding (Lean lists), so the `KM_ERROR_MEMORY_ALLOCATION_FAILED` arm is
unreachable in the model; the freshly allocated (uninitialized) buffers are
modelled as zero-filled — no claim depends on their content.  Any read
failure clears `encrypted_key_material_` and sets
`KM_ERROR_INVALID_KEY_BLOB`; on byte-parse success the function ends in
`ExtractKeyCharacteristics`. -/
def KeyBlob.DeserializeUnversionedBlob (σ : KeyBlob) (l : List Nat) :
    KeyBlob × Bool :=
  let σ0 : KeyBlob := {σ with nonce_ := some (List.replicate NONCE_LENGTH 0),
                              tag_ := some (List.replicate TAG_LENGTH 0)}
  match copy_from_buf NONCE_LENGTH l with
  | none => ({σ0 with encrypted_key_material_ := none,
                      error_ := KError.KM_ERROR_INVALID_KEY_BLOB}, false)
  | some (nb, r1) =>
    let σ1 : KeyBlob := {σ0 with nonce_ := some nb}
    match copy_size_and_data_from_buf r1 with
    | none => ({σ1 with encrypted_key_material_ := none,
                        error_ := KError.KM_ERROR_INVALID_KEY_BLOB}, false)
    | some (kml, kb, r2) =>
      let σ2 : KeyBlob :=
        {σ1 with key_material_length_ := kml, encrypted_key_material_ := some kb}
      match copy_from_buf TAG_LENGTH r2 with
      | none => ({σ2 with encrypted_key_material_ := none,
                          error_ := KError.KM_ERROR_INVALID_KEY_BLOB}, false)
      | some (tb, r3) =>
        let σ3 : KeyBlob := {σ2 with tag_ := some tb}
        match AuthorizationSet.deserialize r3 with
        | none => ({σ3 with encrypted_key_material_ := none,
                            error_ := KError.KM_ERROR_INVALID_KEY_BLOB}, false)
        | some (es, r4) =>
          let σ4 : KeyBlob := {σ3 with enforced_ := es}
          match AuthorizationSet.deserialize r4 with
          | none => ({σ4 with encrypted_key_material_ := none,
                              error_ := KError.KM_ERROR_INVALID_KEY_BLOB}, false)
          | some (us, _) =>
            KeyBlob.ExtractKeyCharacteristics {σ4 with unenforced_ := us}

/-- `KeyBlob::Deserialize` (key_blob.cpp lines 56-101).  The leading
`uint8_t version = *(*buf_ptr)++;` dereferences the buffer before any bounds
check, so on an empty range the source reads one byte outside the range:
that undefined access is the sole source of `none`.  On a failed canonical
attempt the cursor is rewound to `start` and
`DeserializeUnversionedBlob` receives the full range; byte-parse success of
either path ends in `ExtractKeyCharacteristics` (for the legacy path, a
second, idempotent run of it, as in the source). -/
def KeyBlob.Deserialize (σ : KeyBlob) (l : List Nat) : Option (KeyBlob × Bool) :=
  match l with
  | [] => none
  | version :: rest =>
    match KeyBlob.canonicalAttempt σ version rest with
    | (σ', true) => some (KeyBlob.ExtractKeyCharacteristics σ')
    | (σ', false) =>
      match KeyBlob.DeserializeUnversionedBlob σ' l with
      | (σ'', false) => some (σ'', false)
      | (σ'', true) => some (KeyBlob.ExtractKeyCharacteristics σ'')

/-- The byte sequence `KeyBlob::Serialize` (key_blob.cpp lines 44-54) writes
when the caller's buffer has the full `SerializedSize()` capacity: the
version byte, then each buffer behind its 4-byte length field
(`append_size_and_data_to_buf` writes the declared length — `NONCE_LENGTH`,
`key_material_length()`, `TAG_LENGTH` — and reads exactly that many bytes
from the buffer, so the model is faithful for objects whose stored lists
have the declared lengths, as the serialization theorems hypothesize), then
the two policy-set serializations. -/
def KeyBlob.SerializeBytes (σ : KeyBlob) : List Nat :=
  BLOB_VERSION ::
    (enc32 NONCE_LENGTH ++ σ.nonce_.getD [] ++
     enc32 σ.key_material_length_ ++ σ.encrypted_key_material_.getD [] ++
     enc32 TAG_LENGTH ++ σ.tag_.getD [] ++
     σ.enforced_.encoding ++ σ.unenforced_.encoding)

/-- Modelled from the spec (§6): `append_to_buf` — the bounded write
primitive behind `append_size_and_data_to_buf`.  It advances the output
position by the declared byte count unconditionally (the writer's internal
assert requires the position to advance by the full serialized size), but
performs the write — recorded as (position, byte) pairs — only when it fits
entirely below the capacity `cap` (the distance to `end`). -/
def append_to_buf_w (pos cap : Nat) (data : List Nat) (len : Nat) :
    Nat × List (Nat × Nat) :=
  (pos + len, if pos + len ≤ cap then (List.range' pos len).zip data else [])

/-- Modelled from the spec (§6): `append_size_and_data_to_buf` — the 4-byte
length field, then the data. -/
def append_size_and_data_to_buf_w (pos cap : Nat) (len : Nat) (data : List Nat) :
    Nat × List (Nat × Nat) :=
  let p1 := append_to_buf_w pos cap (enc32 len) 4
  let p2 := append_to_buf_w p1.1 cap data len
  (p2.1, p1.2 ++ p2.2)

/-- `KeyBlob::Serialize` (key_blob.cpp lines 44-54) as a write trace over a
caller-provided buffer of capacity `cap` (positions are offsets from `buf`;
the range end is at position `cap`).  `*buf++ = BLOB_VERSION;` writes its
byte unconditionally — the source performs no bounds check on it — so the
pair `(0, BLOB_VERSION)` is always in the trace; every other write goes
through the bounded primitives.  Returns the final position and the write
trace. -/
def KeyBlob.SerializeW (σ : KeyBlob) (cap : Nat) : Nat × List (Nat × Nat) :=
  let w0 : List (Nat × Nat) := [(0, BLOB_VERSION)]
  let a1 := append_size_and_data_to_buf_w 1 cap NONCE_LENGTH (σ.nonce_.getD [])
  let a2 := append_size_and_data_to_buf_w a1.1 cap σ.key_material_length_
    (σ.encrypted_key_material_.getD [])
  let a3 := append_size_and_data_to_buf_w a2.1 cap TAG_LENGTH (σ.tag_.getD [])
  let a4 := append_to_buf_w a3.1 cap σ.enforced_.encoding
    σ.enforced_.SerializedSize
  let a5 := append_to_buf_w a4.1 cap σ.unenforced_.encoding
    σ.unenforced_.SerializedSize
  (a5.1, w0 ++ a1.2 ++ a2.2 ++ a3.2 ++ a4.2 ++ a5.2)

/-! ## Lemmas about the byte-level primitives -/

theorem dec4_enc32 (n : Nat) :
    dec4 (n % 256) (n / 256 % 256) (n / 65536 % 256) (n / 16777216 % 256) =
      n % 4294967296 := by
  unfold dec4; omega

theorem copy_uint32_from_buf_enc32 (n : Nat) (r : List Nat) :
    copy_uint32_from_buf (enc32 n ++ r) = some (n % 4294967296, r) := by
  simp [enc32, copy_uint32_from_buf, dec4_enc32]

theorem copy_uint32_from_buf_enc32_lt (n : Nat) (r : List Nat)
    (h : n < 4294967296) :
    copy_uint32_from_buf (enc32 n ++ r) = some (n, r) := by
  rw [copy_uint32_from_buf_enc32, Nat.mod_eq_of_lt h]

theorem copy_uint32_from_buf_short (l : List Nat) (h : l.length < 4) :
    copy_uint32_from_buf l = none := by
  rcases l with _ | ⟨a, _ | ⟨b, _ | ⟨c, _ | ⟨d, r⟩⟩⟩⟩
  · rfl
  · rfl
  · rfl
  · rfl
  · simp at h; omega

theorem copy_from_buf_exact (xs r : List Nat) :
    copy_from_buf xs.length (xs ++ r) = some (xs, r) := by
  rw [copy_from_buf, if_pos (by simp)]
  rw [List.take_left, List.drop_left]

theorem copy_from_buf_short (n : Nat) (l : List Nat) (h : l.length < n) :
    copy_from_buf n l = none := by
  rw [copy_from_buf, if_neg (by omega)]

theorem copy_size_and_data_from_buf_exact (n : Nat) (xs r : List Nat)
    (hn : n < 4294967296) (hx : xs.length = n) :
    copy_size_and_data_from_buf (enc32 n ++ (xs ++ r)) = some (n, xs, r) := by
  subst hx
  rw [copy_size_and_data_from_buf, copy_uint32_from_buf_enc32_lt _ _ hn]
  simp [List.take_left, List.drop_left]

theorem copy_size_and_data_from_buf_data_short (n : Nat) (D : List Nat)
    (hn : n < 4294967296) (hD : D.length < n) :
    copy_size_and_data_from_buf (enc32 n ++ D) = none := by
  rw [copy_size_and_data_from_buf, copy_uint32_from_buf_enc32_lt n _ hn]
  have hne : ¬ n ≤ D.length := by omega
  simp [hne]

theorem copy_size_and_data_from_buf_short (l : List Nat) (h : l.length < 4) :
    copy_size_and_data_from_buf l = none := by
  rw [copy_size_and_data_from_buf, copy_uint32_from_buf_short l h]

/-! ## Lemmas about the policy-set encoding -/

theorem encEntry_length (e : Nat × Nat) : (encEntry e).length = 8 := rfl

theorem flatten_map_encEntry_length (es : List (Nat × Nat)) :
    ((es.map encEntry).flatten).length = 8 * es.length := by
  induction es with
  | nil => simp
  | cons e es ih => simp [encEntry, enc32, ih]; omega

theorem AuthorizationSet.encoding_length (s : AuthorizationSet) :
    s.encoding.length = 4 + 8 * s.entries.length := by
  rw [AuthorizationSet.encoding, List.length_append, flatten_map_encEntry_length]
  simp [enc32]

theorem decEntries_encoding (es : List (Nat × Nat)) (r : List Nat)
    (h : ∀ e ∈ es, e.1 < 4294967296 ∧ e.2 < 4294967296) :
    decEntries es.length ((es.map encEntry).flatten ++ r) = some (es, r) := by
  induction es with
  | nil => simp [decEntries]
  | cons e es ih =>
    obtain ⟨h1, h2⟩ := h e (by simp)
    have ihr := ih (fun e he => h e (List.mem_cons_of_mem _ he))
    simp [decEntries, encEntry, enc32, List.cons_append, List.append_assoc,
      ihr, dec4_enc32, Nat.mod_eq_of_lt h1, Nat.mod_eq_of_lt h2]

theorem decEntries_short (k : Nat) (l : List Nat) (h : l.length < 8 * k) :
    decEntries k l = none := by
  induction k generalizing l with
  | zero => omega
  | succ k ih =>
    rcases l with _ | ⟨a, l⟩
    · rfl
    rcases l with _ | ⟨b, l⟩
    · rfl
    rcases l with _ | ⟨c, l⟩
    · rfl
    rcases l with _ | ⟨d, l⟩
    · rfl
    rcases l with _ | ⟨e, l⟩
    · rfl
    rcases l with _ | ⟨f, l⟩
    · rfl
    rcases l with _ | ⟨g, l⟩
    · rfl
    rcases l with _ | ⟨x, l⟩
    · rfl
    have hr : l.length < 8 * k := by simp at h; omega
    simp [decEntries, ih l hr]

theorem AuthorizationSet.deserialize_encoding (s : AuthorizationSet)
    (r : List Nat) (h : s.wf) :
    AuthorizationSet.deserialize (s.encoding ++ r) = some (s, r) := by
  obtain ⟨hc, he⟩ := h
  rw [AuthorizationSet.encoding, List.append_assoc, AuthorizationSet.deserialize,
    copy_uint32_from_buf_enc32_lt _ _ hc]
  simp [decEntries_encoding s.entries r he]

theorem AuthorizationSet.deserialize_take (s : AuthorizationSet) (j : Nat)
    (h : s.wf) (hj : j < s.encoding.length) :
    AuthorizationSet.deserialize (s.encoding.take j) = none := by
  rcases Nat.lt_or_ge j 4 with h4 | h4
  · rw [AuthorizationSet.deserialize, copy_uint32_from_buf_short _
      (by rw [List.length_take]; omega)]
  · have hsplit : s.encoding.take j =
        enc32 s.entries.length ++ ((s.entries.map encEntry).flatten.take (j - 4)) := by
      rw [AuthorizationSet.encoding, List.take_append_eq_append_take]
      congr 1
      exact List.take_of_length_le (by simp [enc32]; omega)
    have hlen : s.encoding.length = 4 + 8 * s.entries.length :=
      s.encoding_length
    have hshort : ((s.entries.map encEntry).flatten.take (j - 4)).length <
        8 * s.entries.length := by
      simp [List.length_take, flatten_map_encEntry_length]
      omega
    rw [hsplit, AuthorizationSet.deserialize,
      copy_uint32_from_buf_enc32_lt _ _ h.1]
    simp [decEntries_short _ _ hshort]

/-! ## Lemmas about characteristic extraction -/

/-- The KEY_SIZE half of extraction changes only `key_size_bits_` (on
success) or `error_` (on failure), and reads only the two policy sets. -/
theorem extractKeySize_preserves (σ : KeyBlob) :
    (σ.extractKeySize.1.nonce_ = σ.nonce_) ∧
    (σ.extractKeySize.1.key_material_length_ = σ.key_material_length_) ∧
    (σ.extractKeySize.1.encrypted_key_material_ = σ.encrypted_key_material_) ∧
    (σ.extractKeySize.1.tag_ = σ.tag_) ∧
    (σ.extractKeySize.1.enforced_ = σ.enforced_) ∧
    (σ.extractKeySize.1.unenforced_ = σ.unenforced_) ∧
    (σ.extractKeySize.1.algorithm_ = σ.algorithm_) ∧
    (σ.extractKeySize.2 = true → σ.extractKeySize.1.error_ = σ.error_) ∧
    (σ.extractKeySize.2 = false →
      σ.extractKeySize.1.error_ = KError.KM_ERROR_UNSUPPORTED_KEY_SIZE) ∧
    (σ.extractKeySize.2 = ((σ.enforced_.GetTagValue TAG_KEY_SIZE).isSome ||
      (σ.unenforced_.GetTagValue TAG_KEY_SIZE).isSome)) := by
  unfold KeyBlob.extractKeySize
  cases σ.enforced_.GetTagValue TAG_KEY_SIZE <;>
    cases σ.unenforced_.GetTagValue TAG_KEY_SIZE <;>
    simp_all

/-- `ExtractKeyCharacteristics` never touches the nonce, ciphertext,
ciphertext length, tag or policy-set members, and a successful call leaves
`error_` untouched. -/
theorem ExtractKeyCharacteristics_preserves (σ : KeyBlob) :
    (σ.ExtractKeyCharacteristics.1.nonce_ = σ.nonce_) ∧
    (σ.ExtractKeyCharacteristics.1.key_material_length_ = σ.key_material_length_) ∧
    (σ.ExtractKeyCharacteristics.1.encrypted_key_material_ = σ.encrypted_key_material_) ∧
    (σ.ExtractKeyCharacteristics.1.tag_ = σ.tag_) ∧
    (σ.ExtractKeyCharacteristics.1.enforced_ = σ.enforced_) ∧
    (σ.ExtractKeyCharacteristics.1.unenforced_ = σ.unenforced_) ∧
    (σ.ExtractKeyCharacteristics.2 = true →
      σ.ExtractKeyCharacteristics.1.error_ = σ.error_) := by
  unfold KeyBlob.ExtractKeyCharacteristics
  cases σ.enforced_.GetTagValue TAG_ALGORITHM with
  | some v => have h := extractKeySize_preserves {σ with algorithm_ := v}; simp_all
  | none =>
    cases σ.unenforced_.GetTagValue TAG_ALGORITHM with
    | some v => have h := extractKeySize_preserves {σ with algorithm_ := v}; simp_all
    | none => simp

/-- The outcome of `ExtractKeyCharacteristics` — its Boolean result, and its
error value on failure — depends only on the two policy-set members. -/
theorem ExtractKeyCharacteristics_indep (σ τ : KeyBlob)
    (hE : σ.enforced_ = τ.enforced_) (hU : σ.unenforced_ = τ.unenforced_) :
    σ.ExtractKeyCharacteristics.2 = τ.ExtractKeyCharacteristics.2 ∧
    (σ.ExtractKeyCharacteristics.2 = false →
      σ.ExtractKeyCharacteristics.1.error_ = τ.ExtractKeyCharacteristics.1.error_) := by
  unfold KeyBlob.ExtractKeyCharacteristics
  rw [hE, hU]
  cases τ.enforced_.GetTagValue TAG_ALGORITHM with
  | some v =>
    have h1 := extractKeySize_preserves {σ with algorithm_ := v}
    have h2 := extractKeySize_preserves {τ with algorithm_ := v}
    simp_all
  | none =>
    cases τ.unenforced_.GetTagValue TAG_ALGORITHM with
    | some v =>
      have h1 := extractKeySize_preserves {σ with algorithm_ := v}
      have h2 := extractKeySize_preserves {τ with algorithm_ := v}
      simp_all
    | none => simp

/-- `ExtractKeyCharacteristics` succeeds when ALGORITHM and KEY_SIZE are each
present in one of the two policy sets, and then leaves `error_` unchanged. -/
theorem ExtractKeyCharacteristics_true (σ : KeyBlob)
    (hA : (σ.enforced_.GetTagValue TAG_ALGORITHM).isSome ∨
      (σ.unenforced_.GetTagValue TAG_ALGORITHM).isSome)
    (hK : (σ.enforced_.GetTagValue TAG_KEY_SIZE).isSome ∨
      (σ.unenforced_.GetTagValue TAG_KEY_SIZE).isSome) :
    σ.ExtractKeyCharacteristics.2 = true ∧
    σ.ExtractKeyCharacteristics.1.error_ = σ.error_ := by
  unfold KeyBlob.ExtractKeyCharacteristics
  cases hA' : σ.enforced_.GetTagValue TAG_ALGORITHM with
  | some v => have h := extractKeySize_preserves {σ with algorithm_ := v}; simp_all
  | none =>
    cases hA'' : σ.unenforced_.GetTagValue TAG_ALGORITHM with
    | some v => have h := extractKeySize_preserves {σ with algorithm_ := v}; simp_all
    | none => simp_all

/-- A failing `ExtractKeyCharacteristics` always wrote one of the two
UNSUPPORTED error kinds. -/
theorem ExtractKeyCharacteristics_false_error (σ : KeyBlob)
    (hf : σ.ExtractKeyCharacteristics.2 = false) :
    σ.ExtractKeyCharacteristics.1.error_ = KError.KM_ERROR_UNSUPPORTED_ALGORITHM ∨
    σ.ExtractKeyCharacteristics.1.error_ = KError.KM_ERROR_UNSUPPORTED_KEY_SIZE := by
  unfold KeyBlob.ExtractKeyCharacteristics at hf ⊢
  cases hA : σ.enforced_.GetTagValue TAG_ALGORITHM with
  | some v =>
    rw [hA] at hf
    dsimp only at hf
    obtain ⟨-, -, -, -, -, -, -, -, hfe, -⟩ :=
      extractKeySize_preserves {σ with algorithm_ := v}
    exact Or.inr (hfe hf)
  | none =>
    rw [hA] at hf
    dsimp only at hf
    cases hA2 : σ.unenforced_.GetTagValue TAG_ALGORITHM with
    | some v =>
      rw [hA2] at hf
      dsimp only at hf
      obtain ⟨-, -, -, -, -, -, -, -, hfe, -⟩ :=
        extractKeySize_preserves {σ with algorithm_ := v}
      exact Or.inr (hfe hf)
    | none => exact Or.inl rfl

/-! ## Lemmas about the canonical parse attempt -/

/-- On a byte range of the exact canonical layout, the canonical attempt
succeeds and commits the transported fields. -/
theorem canonicalAttempt_encoding (σ : KeyBlob) (nv ct tg extra : List Nat)
    (E U : AuthorizationSet)
    (hn : nv.length = NONCE_LENGTH) (hct : ct.length < 4294967296)
    (ht : tg.length = TAG_LENGTH) (hE : E.wf) (hU : U.wf) :
    KeyBlob.canonicalAttempt σ BLOB_VERSION
      (enc32 NONCE_LENGTH ++ nv ++ enc32 ct.length ++ ct ++
       enc32 TAG_LENGTH ++ tg ++ E.encoding ++ (U.encoding ++ extra)) =
      ({σ with nonce_ := some nv, key_material_length_ := ct.length,
               encrypted_key_material_ := some ct, tag_ := some tg,
               enforced_ := E, unenforced_ := U}, true) := by
  unfold KeyBlob.canonicalAttempt
  rw [List.append_assoc, List.append_assoc, List.append_assoc,
    List.append_assoc, List.append_assoc, List.append_assoc]
  rw [copy_size_and_data_from_buf_exact NONCE_LENGTH nv _ (by norm_num [NONCE_LENGTH]) hn]
  simp only [BLOB_VERSION, ne_eq, not_true_eq_false, if_false, reduceIte]
  rw [copy_size_and_data_from_buf_exact ct.length ct _ hct rfl]
  simp only [reduceIte]
  rw [copy_size_and_data_from_buf_exact TAG_LENGTH tg _ (by norm_num [TAG_LENGTH]) ht]
  simp only [reduceIte]
  rw [AuthorizationSet.deserialize_encoding E _ hE]
  simp [AuthorizationSet.deserialize_encoding U extra hU]

/-- A nonzero version byte fails the canonical attempt at once, leaving the
object untouched. -/
theorem canonicalAttempt_version_ne (σ : KeyBlob) (v : Nat) (r : List Nat)
    (hv : v ≠ BLOB_VERSION) :
    KeyBlob.canonicalAttempt σ v r = (σ, false) := by
  unfold KeyBlob.canonicalAttempt
  rw [if_pos hv]

/-- A canonical-shaped nonce-length field that does not decode to
`NONCE_LENGTH` fails the canonical attempt. -/
theorem canonicalAttempt_nonce_field_ne (σ : KeyBlob) (b0 b1 b2 b3 : Nat)
    (rest : List Nat) (hb : dec4 b0 b1 b2 b3 ≠ NONCE_LENGTH) :
    (KeyBlob.canonicalAttempt σ BLOB_VERSION (b0 :: b1 :: b2 :: b3 :: rest)).2 =
      false := by
  unfold KeyBlob.canonicalAttempt
  rw [copy_size_and_data_from_buf, copy_uint32_from_buf]
  by_cases hle : dec4 b0 b1 b2 b3 ≤ rest.length
  · simp [hle, hb]
  · simp [hle]

/-- When the canonical attempt has failed, `Deserialize` rewinds and hands
the full range, from its first byte, to `DeserializeUnversionedBlob`,
applied to the object state the canonical attempt left behind. -/
theorem Deserialize_fallback (σ : KeyBlob) (v : Nat) (r : List Nat)
    (hc : (KeyBlob.canonicalAttempt σ v r).2 = false) :
    KeyBlob.Deserialize σ (v :: r) =
      some (if (KeyBlob.DeserializeUnversionedBlob
                  (KeyBlob.canonicalAttempt σ v r).1 (v :: r)).2 = true
            then KeyBlob.ExtractKeyCharacteristics
                  (KeyBlob.DeserializeUnversionedBlob
                    (KeyBlob.canonicalAttempt σ v r).1 (v :: r)).1
            else KeyBlob.DeserializeUnversionedBlob
                  (KeyBlob.canonicalAttempt σ v r).1 (v :: r)) := by
  rcases hca : KeyBlob.canonicalAttempt σ v r with ⟨σ', b⟩
  rw [hca] at hc
  simp only at hc
  subst hc
  unfold KeyBlob.Deserialize
  rcases hdu : KeyBlob.DeserializeUnversionedBlob σ' (v :: r) with ⟨σ'', b'⟩
  rcases b' <;> simp [hca, hdu]

/-- When the canonical attempt succeeds, `Deserialize` proceeds straight to
`ExtractKeyCharacteristics` and never consults the legacy parser. -/
theorem Deserialize_canonical (σ : KeyBlob) (v : Nat) (r : List Nat)
    (hc : (KeyBlob.canonicalAttempt σ v r).2 = true) :
    KeyBlob.Deserialize σ (v :: r) =
      some (KeyBlob.ExtractKeyCharacteristics (KeyBlob.canonicalAttempt σ v r).1) := by
  rcases hca : KeyBlob.canonicalAttempt σ v r with ⟨σ', b⟩
  rw [hca] at hc
  simp only at hc
  subst hc
  unfold KeyBlob.Deserialize
  simp [hca]

/-! ## Independence of the parse attempts from the starting object state -/

/-- The legacy parser's result bit is a function of the byte range alone; on
success the nonce, ciphertext, ciphertext length, tag and policy-set fields
of the result are functions of the byte range alone, and `error_` is carried
over unchanged from the starting object; on failure the error value set is a
function of the byte range alone and is never `KM_ERROR_OK`. -/
theorem DeserializeUnversionedBlob_indep (σ τ : KeyBlob) (l : List Nat) :
    (KeyBlob.DeserializeUnversionedBlob σ l).2 =
      (KeyBlob.DeserializeUnversionedBlob τ l).2 ∧
    ((KeyBlob.DeserializeUnversionedBlob σ l).2 = true →
      (KeyBlob.DeserializeUnversionedBlob σ l).1.nonce_ =
        (KeyBlob.DeserializeUnversionedBlob τ l).1.nonce_ ∧
      (KeyBlob.DeserializeUnversionedBlob σ l).1.key_material_length_ =
        (KeyBlob.DeserializeUnversionedBlob τ l).1.key_material_length_ ∧
      (KeyBlob.DeserializeUnversionedBlob σ l).1.encrypted_key_material_ =
        (KeyBlob.DeserializeUnversionedBlob τ l).1.encrypted_key_material_ ∧
      (KeyBlob.DeserializeUnversionedBlob σ l).1.tag_ =
        (KeyBlob.DeserializeUnversionedBlob τ l).1.tag_ ∧
      (KeyBlob.DeserializeUnversionedBlob σ l).1.enforced_ =
        (KeyBlob.DeserializeUnversionedBlob τ l).1.enforced_ ∧
      (KeyBlob.DeserializeUnversionedBlob σ l).1.unenforced_ =
        (KeyBlob.DeserializeUnversionedBlob τ l).1.unenforced_ ∧
      (KeyBlob.DeserializeUnversionedBlob σ l).1.error_ = σ.error_ ∧
      (KeyBlob.DeserializeUnversionedBlob τ l).1.error_ = τ.error_) ∧
    ((KeyBlob.DeserializeUnversionedBlob σ l).2 = false →
      (KeyBlob.DeserializeUnversionedBlob σ l).1.error_ =
        (KeyBlob.DeserializeUnversionedBlob τ l).1.error_ ∧
      (KeyBlob.DeserializeUnversionedBlob σ l).1.error_ ≠ KError.KM_ERROR_OK) := by
  unfold KeyBlob.DeserializeUnversionedBlob
  cases h1 : copy_from_buf NONCE_LENGTH l with
  | none => simp
  | some p1 =>
    rcases p1 with ⟨nb, r1⟩
    dsimp only
    cases h2 : copy_size_and_data_from_buf r1 with
    | none => simp
    | some p2 =>
      rcases p2 with ⟨kml, kb, r2⟩
      dsimp only
      cases h3 : copy_from_buf TAG_LENGTH r2 with
      | none => simp
      | some p3 =>
        rcases p3 with ⟨tb, r3⟩
        dsimp only
        cases h4 : AuthorizationSet.deserialize r3 with
        | none => simp
        | some p4 =>
          rcases p4 with ⟨es, r4⟩
          dsimp only
          cases h5 : AuthorizationSet.deserialize r4 with
          | none => simp
          | some p5 =>
            rcases p5 with ⟨us, r5⟩
            dsimp only
            constructor
            · exact (ExtractKeyCharacteristics_indep
                {σ with nonce_ := some nb, tag_ := some tb,
                        key_material_length_ := kml,
                        encrypted_key_material_ := some kb,
                        enforced_ := es, unenforced_ := us}
                {τ with nonce_ := some nb, tag_ := some tb,
                        key_material_length_ := kml,
                        encrypted_key_material_ := some kb,
                        enforced_ := es, unenforced_ := us} rfl rfl).1
            constructor
            · intro htrue
              have hpσ := ExtractKeyCharacteristics_preserves
                {σ with nonce_ := some nb, tag_ := some tb,
                        key_material_length_ := kml,
                        encrypted_key_material_ := some kb,
                        enforced_ := es, unenforced_ := us}
              have hpτ := ExtractKeyCharacteristics_preserves
                {τ with nonce_ := some nb, tag_ := some tb,
                        key_material_length_ := kml,
                        encrypted_key_material_ := some kb,
                        enforced_ := es, unenforced_ := us}
              have hind := ExtractKeyCharacteristics_indep
                {σ with nonce_ := some nb, tag_ := some tb,
                        key_material_length_ := kml,
                        encrypted_key_material_ := some kb,
                        enforced_ := es, unenforced_ := us}
                {τ with nonce_ := some nb, tag_ := some tb,
                        key_material_length_ := kml,
                        encrypted_key_material_ := some kb,
                        enforced_ := es, unenforced_ := us} rfl rfl
              simp_all
            · intro hfalse
              have hind := ExtractKeyCharacteristics_indep
                {σ with nonce_ := some nb, tag_ := some tb,
                        key_material_length_ := kml,
                        encrypted_key_material_ := some kb,
                        enforced_ := es, unenforced_ := us}
                {τ with nonce_ := some nb, tag_ := some tb,
                        key_material_length_ := kml,
                        encrypted_key_material_ := some kb,
                        enforced_ := es, unenforced_ := us} rfl rfl
              refine ⟨hind.2 hfalse, ?_⟩
              rcases ExtractKeyCharacteristics_false_error _ hfalse with h | h <;>
                simp [h]

/-- The canonical attempt's result bit is a function of the byte range
alone; on success the fields it committed are functions of the byte range
alone and `error_` is carried over unchanged. -/
theorem canonicalAttempt_indep (σ τ : KeyBlob) (v : Nat) (r : List Nat) :
    (KeyBlob.canonicalAttempt σ v r).2 = (KeyBlob.canonicalAttempt τ v r).2 ∧
    ((KeyBlob.canonicalAttempt σ v r).2 = true →
      (KeyBlob.canonicalAttempt σ v r).1.nonce_ =
        (KeyBlob.canonicalAttempt τ v r).1.nonce_ ∧
      (KeyBlob.canonicalAttempt σ v r).1.key_material_length_ =
        (KeyBlob.canonicalAttempt τ v r).1.key_material_length_ ∧
      (KeyBlob.canonicalAttempt σ v r).1.encrypted_key_material_ =
        (KeyBlob.canonicalAttempt τ v r).1.encrypted_key_material_ ∧
      (KeyBlob.canonicalAttempt σ v r).1.tag_ =
        (KeyBlob.canonicalAttempt τ v r).1.tag_ ∧
      (KeyBlob.canonicalAttempt σ v r).1.enforced_ =
        (KeyBlob.canonicalAttempt τ v r).1.enforced_ ∧
      (KeyBlob.canonicalAttempt σ v r).1.unenforced_ =
        (KeyBlob.canonicalAttempt τ v r).1.unenforced_ ∧
      (KeyBlob.canonicalAttempt σ v r).1.error_ = σ.error_ ∧
      (KeyBlob.canonicalAttempt τ v r).1.error_ = τ.error_) := by
  unfold KeyBlob.canonicalAttempt
  by_cases hv : v ≠ BLOB_VERSION
  · rw [if_pos hv, if_pos hv]; simp
  rw [if_neg hv, if_neg hv]
  cases h1 : copy_size_and_data_from_buf r with
  | none => simp
  | some p1 =>
    rcases p1 with ⟨nl, nb, r1⟩
    dsimp only
    by_cases hnl : nl ≠ NONCE_LENGTH
    · rw [if_pos hnl, if_pos hnl]; simp
    rw [if_neg hnl, if_neg hnl]
    cases h2 : copy_size_and_data_from_buf r1 with
    | none => simp
    | some p2 =>
      rcases p2 with ⟨kml, kb, r2⟩
      dsimp only
      cases h3 : copy_size_and_data_from_buf r2 with
      | none => simp
      | some p3 =>
        rcases p3 with ⟨tl, tb, r3⟩
        dsimp only
        by_cases htl : tl ≠ TAG_LENGTH
        · rw [if_pos htl, if_pos htl]; simp
        rw [if_neg htl, if_neg htl]
        cases h4 : AuthorizationSet.deserialize r3 with
        | none => simp
        | some p4 =>
          rcases p4 with ⟨es, r4⟩
          dsimp only
          cases h5 : AuthorizationSet.deserialize r4 with
          | none => simp
          | some p5 =>
            rcases p5 with ⟨us, r5⟩
            simp

/-- The canonical attempt never touches `error_`, `algorithm_` or
`key_size_bits_`, on any of its paths. -/
theorem canonicalAttempt_untouched (σ : KeyBlob) (v : Nat) (r : List Nat) :
    (KeyBlob.canonicalAttempt σ v r).1.error_ = σ.error_ ∧
    (KeyBlob.canonicalAttempt σ v r).1.algorithm_ = σ.algorithm_ ∧
    (KeyBlob.canonicalAttempt σ v r).1.key_size_bits_ = σ.key_size_bits_ := by
  unfold KeyBlob.canonicalAttempt
  by_cases hv : v ≠ BLOB_VERSION
  · rw [if_pos hv]; simp
  rw [if_neg hv]
  cases h1 : copy_size_and_data_from_buf r with
  | none => simp
  | some p1 =>
    rcases p1 with ⟨nl, nb, r1⟩
    dsimp only
    by_cases hnl : nl ≠ NONCE_LENGTH
    · rw [if_pos hnl]; simp
    rw [if_neg hnl]
    cases h2 : copy_size_and_data_from_buf r1 with
    | none => simp
    | some p2 =>
      rcases p2 with ⟨kml, kb, r2⟩
      dsimp only
      cases h3 : copy_size_and_data_from_buf r2 with
      | none => simp
      | some p3 =>
        rcases p3 with ⟨tl, tb, r3⟩
        dsimp only
        by_cases htl : tl ≠ TAG_LENGTH
        · rw [if_pos htl]; simp
        rw [if_neg htl]
        cases h4 : AuthorizationSet.deserialize r3 with
        | none => simp
        | some p4 =>
          rcases p4 with ⟨es, r4⟩
          dsimp only
          cases h5 : AuthorizationSet.deserialize r4 with
          | none => simp
          | some p5 =>
            rcases p5 with ⟨us, r5⟩
            simp

/-- `Deserialize`'s result bit is a function of the byte range alone; on
success the five transported fields are functions of the byte range alone
and `error_` is carried over unchanged; on failure the error written is a
function of the byte range alone and is never `KM_ERROR_OK`. -/
theorem Deserialize_indep (σ τ : KeyBlob) (l : List Nat) :
    (KeyBlob.Deserialize σ l).map Prod.snd = (KeyBlob.Deserialize τ l).map Prod.snd ∧
    (∀ a b, KeyBlob.Deserialize σ l = some (a, true) →
      KeyBlob.Deserialize τ l = some (b, true) →
      a.nonce_ = b.nonce_ ∧ a.key_material_length_ = b.key_material_length_ ∧
      a.encrypted_key_material_ = b.encrypted_key_material_ ∧
      a.tag_ = b.tag_ ∧ a.enforced_ = b.enforced_ ∧ a.unenforced_ = b.unenforced_ ∧
      a.error_ = σ.error_ ∧ b.error_ = τ.error_) ∧
    (∀ a b, KeyBlob.Deserialize σ l = some (a, false) →
      KeyBlob.Deserialize τ l = some (b, false) →
      a.error_ = b.error_ ∧ a.error_ ≠ KError.KM_ERROR_OK) := by
  rcases l with _ | ⟨v, r⟩
  · simp [KeyBlob.Deserialize]
  obtain ⟨hcr, hcf⟩ := canonicalAttempt_indep σ τ v r
  cases hcb : (KeyBlob.canonicalAttempt σ v r).2 with
  | true =>
    have hcbτ : (KeyBlob.canonicalAttempt τ v r).2 = true := by rw [← hcr]; exact hcb
    obtain ⟨e1, e2, e3, e4, e5, e6, e7, e8⟩ := hcf hcb
    rw [Deserialize_canonical σ v r hcb, Deserialize_canonical τ v r hcbτ]
    obtain ⟨exr, exf⟩ := ExtractKeyCharacteristics_indep
      (KeyBlob.canonicalAttempt σ v r).1 (KeyBlob.canonicalAttempt τ v r).1 e5 e6
    obtain ⟨p1, p2, p3, p4, p5, p6, p7⟩ :=
      ExtractKeyCharacteristics_preserves (KeyBlob.canonicalAttempt σ v r).1
    obtain ⟨q1, q2, q3, q4, q5, q6, q7⟩ :=
      ExtractKeyCharacteristics_preserves (KeyBlob.canonicalAttempt τ v r).1
    refine ⟨by simp [exr], ?_, ?_⟩
    · intro a b ha hb
      have haa := (Option.some.injEq _ _).mp ha
      have hbb := (Option.some.injEq _ _).mp hb
      have ha1 : a = _ := (congrArg Prod.fst haa).symm
      have hb1 : b = _ := (congrArg Prod.fst hbb).symm
      have ha2 := congrArg Prod.snd haa
      have hb2 := congrArg Prod.snd hbb
      dsimp only at ha1 hb1 ha2 hb2
      subst ha1; subst hb1
      exact ⟨p1.trans (e1.trans q1.symm), p2.trans (e2.trans q2.symm),
        p3.trans (e3.trans q3.symm), p4.trans (e4.trans q4.symm),
        p5.trans (e5.trans q5.symm), p6.trans (e6.trans q6.symm),
        (p7 ha2).trans e7, (q7 hb2).trans e8⟩
    · intro a b ha hb
      have haa := (Option.some.injEq _ _).mp ha
      have hbb := (Option.some.injEq _ _).mp hb
      have ha1 : a = _ := (congrArg Prod.fst haa).symm
      have hb1 : b = _ := (congrArg Prod.fst hbb).symm
      have ha2 := congrArg Prod.snd haa
      dsimp only at ha1 hb1 ha2
      subst ha1; subst hb1
      refine ⟨exf ha2, ?_⟩
      rcases ExtractKeyCharacteristics_false_error _ ha2 with h | h <;> simp [h]
  | false =>
    have hcbτ : (KeyBlob.canonicalAttempt τ v r).2 = false := by rw [← hcr]; exact hcb
    rw [Deserialize_fallback σ v r hcb, Deserialize_fallback τ v r hcbτ]
    obtain ⟨dr, dt, df⟩ := DeserializeUnversionedBlob_indep
      (KeyBlob.canonicalAttempt σ v r).1 (KeyBlob.canonicalAttempt τ v r).1 (v :: r)
    obtain ⟨cuσ, -, -⟩ := canonicalAttempt_untouched σ v r
    obtain ⟨cuτ, -, -⟩ := canonicalAttempt_untouched τ v r
    cases hdb : (KeyBlob.DeserializeUnversionedBlob
        (KeyBlob.canonicalAttempt σ v r).1 (v :: r)).2 with
    | true =>
      have hdbτ : (KeyBlob.DeserializeUnversionedBlob
          (KeyBlob.canonicalAttempt τ v r).1 (v :: r)).2 = true := by
        rw [← dr]; exact hdb
      obtain ⟨e1, e2, e3, e4, e5, e6, e7, e8⟩ := dt hdb
      rw [hdbτ]
      simp only [reduceIte]
      obtain ⟨exr, exf⟩ := ExtractKeyCharacteristics_indep _ _ e5 e6
      obtain ⟨p1, p2, p3, p4, p5, p6, p7⟩ := ExtractKeyCharacteristics_preserves
        (KeyBlob.DeserializeUnversionedBlob (KeyBlob.canonicalAttempt σ v r).1 (v :: r)).1
      obtain ⟨q1, q2, q3, q4, q5, q6, q7⟩ := ExtractKeyCharacteristics_preserves
        (KeyBlob.DeserializeUnversionedBlob (KeyBlob.canonicalAttempt τ v r).1 (v :: r)).1
      refine ⟨by simp [exr], ?_, ?_⟩
      · intro a b ha hb
        have haa := (Option.some.injEq _ _).mp ha
        have hbb := (Option.some.injEq _ _).mp hb
        have ha1 : a = _ := (congrArg Prod.fst haa).symm
        have hb1 : b = _ := (congrArg Prod.fst hbb).symm
        have ha2 := congrArg Prod.snd haa
        have hb2 := congrArg Prod.snd hbb
        dsimp only at ha1 hb1 ha2 hb2
        subst ha1; subst hb1
        exact ⟨p1.trans (e1.trans q1.symm), p2.trans (e2.trans q2.symm),
          p3.trans (e3.trans q3.symm), p4.trans (e4.trans q4.symm),
          p5.trans (e5.trans q5.symm), p6.trans (e6.trans q6.symm),
          (p7 ha2).trans (e7.trans cuσ), (q7 hb2).trans (e8.trans cuτ)⟩
      · intro a b ha hb
        have haa := (Option.some.injEq _ _).mp ha
        have hbb := (Option.some.injEq _ _).mp hb
        have ha1 : a = _ := (congrArg Prod.fst haa).symm
        have hb1 : b = _ := (congrArg Prod.fst hbb).symm
        have ha2 := congrArg Prod.snd haa
        dsimp only at ha1 hb1 ha2
        subst ha1; subst hb1
        refine ⟨exf ha2, ?_⟩
        rcases ExtractKeyCharacteristics_false_error _ ha2 with h | h <;> simp [h]
    | false =>
      have hdbτ : (KeyBlob.DeserializeUnversionedBlob
          (KeyBlob.canonicalAttempt τ v r).1 (v :: r)).2 = false := by
        rw [← dr]; exact hdb
      obtain ⟨fe, fok⟩ := df hdb
      rw [if_neg (show ¬(false = true) by simp),
        if_neg (show ¬((KeyBlob.DeserializeUnversionedBlob
          (KeyBlob.canonicalAttempt τ v r).1 (v :: r)).2 = true) by simp [hdbτ])]
      refine ⟨by simpa using dr, ?_, ?_⟩
      · intro a b ha hb
        have ha2 := congrArg Prod.snd ((Option.some.injEq _ _).mp ha)
        dsimp only at ha2
        rw [hdb] at ha2
        exact absurd ha2 (by simp)
      · intro a b ha hb
        have haa := (Option.some.injEq _ _).mp ha
        have hbb := (Option.some.injEq _ _).mp hb
        have ha1 : a = _ := (congrArg Prod.fst haa).symm
        have hb1 : b = _ := (congrArg Prod.fst hbb).symm
        subst ha1; subst hb1
        exact ⟨fe, fok⟩

/-! ## The canonical attempt fails on every proper prefix of a valid blob -/

theorem enc32_length (n : Nat) : (enc32 n).length = 4 := rfl

theorem take_append_len (A B : List Nat) (j a : Nat) (ha : A.length = a)
    (h : a ≤ j) : (A ++ B).take j = A ++ B.take (j - a) := by
  subst ha
  rw [List.take_append_eq_append_take, List.take_of_length_le h]

/-- Truncating the canonical byte layout anywhere before its end makes the
canonical parse attempt fail: every read of the layout is bounds-checked and
the truncation starves exactly one of them (or truncates a policy-set
encoding, which its deserializer rejects). -/
theorem canonicalAttempt_take_false (σ : KeyBlob) (nv ct tg : List Nat)
    (E U : AuthorizationSet) (j : Nat)
    (hn : nv.length = NONCE_LENGTH) (hct : ct.length < 4294967296)
    (ht : tg.length = TAG_LENGTH) (hE : E.wf) (hU : U.wf)
    (hj : j < 40 + ct.length + E.encoding.length + U.encoding.length) :
    (KeyBlob.canonicalAttempt σ BLOB_VERSION
      ((enc32 NONCE_LENGTH ++ (nv ++ (enc32 ct.length ++ (ct ++
        (enc32 TAG_LENGTH ++ (tg ++ (E.encoding ++ U.encoding))))))).take j)).2 =
      false := by
  have hn12 : nv.length = 12 := hn
  have ht16 : tg.length = 16 := ht
  have hrest : (nv ++ (enc32 ct.length ++ (ct ++ (enc32 TAG_LENGTH ++
      (tg ++ (E.encoding ++ U.encoding)))))).length =
      36 + ct.length + E.encoding.length + U.encoding.length := by
    simp only [List.length_append, enc32_length, hn12, ht16]
    omega
  rcases Nat.lt_or_ge j 4 with c1 | c1
  · -- truncated inside the nonce length field
    unfold KeyBlob.canonicalAttempt
    rw [if_neg (show ¬(BLOB_VERSION ≠ BLOB_VERSION) by simp)]
    rw [copy_size_and_data_from_buf_short _ (by rw [List.length_take]; omega)]
  · rw [take_append_len (enc32 NONCE_LENGTH) _ j 4 (enc32_length _) c1]
    rcases Nat.lt_or_ge j 16 with c2 | c2
    · -- truncated inside the nonce bytes
      unfold KeyBlob.canonicalAttempt
      rw [if_neg (show ¬(BLOB_VERSION ≠ BLOB_VERSION) by simp)]
      rw [copy_size_and_data_from_buf_data_short NONCE_LENGTH _
        (by norm_num [NONCE_LENGTH]) (by rw [List.length_take]; simp [NONCE_LENGTH]; omega)]
    · rw [take_append_len nv _ (j - 4) 12 hn12 (by omega)]
      rcases Nat.lt_or_ge j 20 with c3 | c3
      · -- truncated inside the ciphertext length field
        unfold KeyBlob.canonicalAttempt
        rw [if_neg (show ¬(BLOB_VERSION ≠ BLOB_VERSION) by simp)]
        rw [copy_size_and_data_from_buf_exact NONCE_LENGTH nv _
          (by norm_num [NONCE_LENGTH]) hn]
        dsimp only
        rw [if_neg (show ¬(NONCE_LENGTH ≠ NONCE_LENGTH) by simp)]
        rw [copy_size_and_data_from_buf_short _ (by rw [List.length_take]; omega)]
      · rw [take_append_len (enc32 ct.length) _ (j - 4 - 12) 4 (enc32_length _)
          (by omega)]
        rcases Nat.lt_or_ge j (20 + ct.length) with c4 | c4
        · -- truncated inside the ciphertext bytes
          unfold KeyBlob.canonicalAttempt
          rw [if_neg (show ¬(BLOB_VERSION ≠ BLOB_VERSION) by simp)]
          rw [copy_size_and_data_from_buf_exact NONCE_LENGTH nv _
            (by norm_num [NONCE_LENGTH]) hn]
          dsimp only
          rw [if_neg (show ¬(NONCE_LENGTH ≠ NONCE_LENGTH) by simp)]
          rw [copy_size_and_data_from_buf_data_short ct.length _ hct
            (by rw [List.length_take]; simp only [List.length_append, enc32_length, ht16]; omega)]
        · rw [take_append_len ct _ (j - 4 - 12 - 4) ct.length rfl (by omega)]
          rcases Nat.lt_or_ge j (24 + ct.length) with c5 | c5
          · -- truncated inside the tag length field
            unfold KeyBlob.canonicalAttempt
            rw [if_neg (show ¬(BLOB_VERSION ≠ BLOB_VERSION) by simp)]
            rw [copy_size_and_data_from_buf_exact NONCE_LENGTH nv _
              (by norm_num [NONCE_LENGTH]) hn]
            dsimp only
            rw [if_neg (show ¬(NONCE_LENGTH ≠ NONCE_LENGTH) by simp)]
            rw [copy_size_and_data_from_buf_exact ct.length ct _ hct rfl]
            dsimp only
            rw [copy_size_and_data_from_buf_short _ (by rw [List.length_take]; omega)]
          · rw [take_append_len (enc32 TAG_LENGTH) _ (j - 4 - 12 - 4 - ct.length) 4
              (enc32_length _) (by omega)]
            rcases Nat.lt_or_ge j (40 + ct.length) with c6 | c6
            · -- truncated inside the tag bytes
              unfold KeyBlob.canonicalAttempt
              rw [if_neg (show ¬(BLOB_VERSION ≠ BLOB_VERSION) by simp)]
              rw [copy_size_and_data_from_buf_exact NONCE_LENGTH nv _
                (by norm_num [NONCE_LENGTH]) hn]
              dsimp only
              rw [if_neg (show ¬(NONCE_LENGTH ≠ NONCE_LENGTH) by simp)]
              rw [copy_size_and_data_from_buf_exact ct.length ct _ hct rfl]
              dsimp only
              rw [copy_size_and_data_from_buf_data_short TAG_LENGTH _
                (by norm_num [TAG_LENGTH])
                (by rw [List.length_take]; simp [TAG_LENGTH, ht16]; omega)]
            · rw [take_append_len tg _ (j - 4 - 12 - 4 - ct.length - 4) 16 ht16
                (by omega)]
              rcases Nat.lt_or_ge j (40 + ct.length + E.encoding.length) with c7 | c7
              · -- truncated inside the enforced policy set
                have hj7 : j - 4 - 12 - 4 - ct.length - 4 - 16 < E.encoding.length := by
                  omega
                rw [List.take_append_of_le_length (by omega)]
                unfold KeyBlob.canonicalAttempt
                rw [if_neg (show ¬(BLOB_VERSION ≠ BLOB_VERSION) by simp)]
                rw [copy_size_and_data_from_buf_exact NONCE_LENGTH nv _
                  (by norm_num [NONCE_LENGTH]) hn]
                dsimp only
                rw [if_neg (show ¬(NONCE_LENGTH ≠ NONCE_LENGTH) by simp)]
                rw [copy_size_and_data_from_buf_exact ct.length ct _ hct rfl]
                dsimp only
                rw [copy_size_and_data_from_buf_exact TAG_LENGTH tg _
                  (by norm_num [TAG_LENGTH]) ht]
                dsimp only
                rw [if_neg (show ¬(TAG_LENGTH ≠ TAG_LENGTH) by simp)]
                rw [AuthorizationSet.deserialize_take E _ hE hj7]
              · -- truncated inside the unenforced policy set
                have hj8 : j - 4 - 12 - 4 - ct.length - 4 - 16 - E.encoding.length <
                    U.encoding.length := by omega
                rw [take_append_len E.encoding _ _ E.encoding.length rfl (by omega)]
                unfold KeyBlob.canonicalAttempt
                rw [if_neg (show ¬(BLOB_VERSION ≠ BLOB_VERSION) by simp)]
                rw [copy_size_and_data_from_buf_exact NONCE_LENGTH nv _
                  (by norm_num [NONCE_LENGTH]) hn]
                dsimp only
                rw [if_neg (show ¬(NONCE_LENGTH ≠ NONCE_LENGTH) by simp)]
                rw [copy_size_and_data_from_buf_exact ct.length ct _ hct rfl]
                dsimp only
                rw [copy_size_and_data_from_buf_exact TAG_LENGTH tg _
                  (by norm_num [TAG_LENGTH]) ht]
                dsimp only
                rw [if_neg (show ¬(TAG_LENGTH ≠ TAG_LENGTH) by simp)]
                rw [AuthorizationSet.deserialize_encoding E _ hE]
                dsimp only
                rw [AuthorizationSet.deserialize_take U _ hU hj8]

/-- A failing `DeserializeUnversionedBlob` either failed the byte-level
parse — then it cleared the ciphertext buffer and set
`KM_ERROR_INVALID_KEY_BLOB` — or parsed the bytes and failed
characteristic extraction, setting one of the UNSUPPORTED kinds. -/
theorem DeserializeUnversionedBlob_false_cases (σ : KeyBlob) (l : List Nat) :
    (KeyBlob.DeserializeUnversionedBlob σ l).2 = false →
      ((KeyBlob.DeserializeUnversionedBlob σ l).1.encrypted_key_material_ = none ∧
       (KeyBlob.DeserializeUnversionedBlob σ l).1.error_ =
         KError.KM_ERROR_INVALID_KEY_BLOB) ∨
      (KeyBlob.DeserializeUnversionedBlob σ l).1.error_ =
        KError.KM_ERROR_UNSUPPORTED_ALGORITHM ∨
      (KeyBlob.DeserializeUnversionedBlob σ l).1.error_ =
        KError.KM_ERROR_UNSUPPORTED_KEY_SIZE := by
  unfold KeyBlob.DeserializeUnversionedBlob
  cases h1 : copy_from_buf NONCE_LENGTH l with
  | none => intro; left; exact ⟨rfl, rfl⟩
  | some p1 =>
    rcases p1 with ⟨nb, r1⟩
    dsimp only
    cases h2 : copy_size_and_data_from_buf r1 with
    | none => intro; left; exact ⟨rfl, rfl⟩
    | some p2 =>
      rcases p2 with ⟨kml, kb, r2⟩
      dsimp only
      cases h3 : copy_from_buf TAG_LENGTH r2 with
      | none => intro; left; exact ⟨rfl, rfl⟩
      | some p3 =>
        rcases p3 with ⟨tb, r3⟩
        dsimp only
        cases h4 : AuthorizationSet.deserialize r3 with
        | none => intro; left; exact ⟨rfl, rfl⟩
        | some p4 =>
          rcases p4 with ⟨es, r4⟩
          dsimp only
          cases h5 : AuthorizationSet.deserialize r4 with
          | none => intro; left; exact ⟨rfl, rfl⟩
          | some p5 =>
            rcases p5 with ⟨us, r5⟩
            dsimp only
            intro hf
            exact Or.inr (ExtractKeyCharacteristics_false_error _ hf)

/-! ## The claims -/

/-- C9: `SerializedSize()` is exactly
`1 + 4 + NONCE_LENGTH + 4 + key_material_length + 4 + TAG_LENGTH +
enforced.SerializedSize() + unenforced.SerializedSize()`, and `Serialize`
advances the output position by exactly `SerializedSize()` bytes — for every
buffer capacity, hence in particular for every sufficiently large one. -/
theorem C9_serialized_size (σ : KeyBlob) (cap : Nat) :
    σ.SerializedSize = 1 + 4 + NONCE_LENGTH + 4 + σ.key_material_length_ +
      4 + TAG_LENGTH + σ.enforced_.SerializedSize + σ.unenforced_.SerializedSize ∧
    (σ.SerializeW cap).1 = σ.SerializedSize := by
  refine ⟨rfl, ?_⟩
  simp [KeyBlob.SerializeW, append_size_and_data_to_buf_w, append_to_buf_w,
    KeyBlob.SerializedSize]

/-- C3 (code bug): with a capacity-0 buffer (`buf == end`), `Serialize`
still performs exactly one write — `*buf++ = BLOB_VERSION;` at position 0,
which is at the range end, outside the buffer.  The source performs no
bounds check on the version-byte write; all other writes go through the
bounded primitives and are skipped here. -/
theorem C3_version_write_at_end :
    (KeyBlob.SerializeW KeyBlob.init 0).2 = [(0, BLOB_VERSION)] := by
  decide

/-- C10 (code bug): `uint8_t version = *(*buf_ptr)++;` dereferences the
buffer before any bounds check, so on an empty range the source reads one
byte outside the range — modelled as the undefined result `none`, the sole
source of `none`: on every non-empty range all reads are bounds-checked and
`Deserialize` returns an ordinary success/failure outcome. -/
theorem C10_version_read_unchecked :
    KeyBlob.Deserialize KeyBlob.init [] = none ∧
    ∀ (σ : KeyBlob) (v : Nat) (r : List Nat),
      (KeyBlob.Deserialize σ (v :: r)).isSome = true := by
  refine ⟨rfl, ?_⟩
  intro σ v r
  unfold KeyBlob.Deserialize
  rcases h : KeyBlob.canonicalAttempt σ v r with ⟨σ', b⟩
  rcases b
  · rcases h2 : KeyBlob.DeserializeUnversionedBlob σ' (v :: r) with ⟨σ'', b'⟩
    rcases b' <;> simp [h, h2]
  · simp [h]

/-- A successful legacy parse re-survives the second
`ExtractKeyCharacteristics` run that `Deserialize` performs after it. -/
theorem DeserializeUnversionedBlob_true_reextract (σ : KeyBlob) (l : List Nat) :
    (KeyBlob.DeserializeUnversionedBlob σ l).2 = true →
      (KeyBlob.ExtractKeyCharacteristics
        (KeyBlob.DeserializeUnversionedBlob σ l).1).2 = true := by
  unfold KeyBlob.DeserializeUnversionedBlob
  cases h1 : copy_from_buf NONCE_LENGTH l with
  | none => intro h; exact absurd h (by simp)
  | some p1 =>
    rcases p1 with ⟨nb, r1⟩
    dsimp only
    cases h2 : copy_size_and_data_from_buf r1 with
    | none => intro h; exact absurd h (by simp)
    | some p2 =>
      rcases p2 with ⟨kml, kb, r2⟩
      dsimp only
      cases h3 : copy_from_buf TAG_LENGTH r2 with
      | none => intro h; exact absurd h (by simp)
      | some p3 =>
        rcases p3 with ⟨tb, r3⟩
        dsimp only
        cases h4 : AuthorizationSet.deserialize r3 with
        | none => intro h; exact absurd h (by simp)
        | some p4 =>
          rcases p4 with ⟨es, r4⟩
          dsimp only
          cases h5 : AuthorizationSet.deserialize r4 with
          | none => intro h; exact absurd h (by simp)
          | some p5 =>
            rcases p5 with ⟨us, r5⟩
            dsimp only
            intro h
            obtain ⟨-, -, -, -, p5', p6', -⟩ := ExtractKeyCharacteristics_preserves
              {σ with nonce_ := some nb, tag_ := some tb,
                      key_material_length_ := kml,
                      encrypted_key_material_ := some kb,
                      enforced_ := es, unenforced_ := us}
            exact (ExtractKeyCharacteristics_indep _ _ p5' p6').1.trans h

/-- C5 (amended): the legacy attempt's behaviour, and — when it succeeds —
the resulting nonce, ciphertext, ciphertext length, tag and policy-set
fields, are independent of the object state it starts from, so a successful
fallback yields the fields the legacy parse would produce on a pristine
object, as if the canonical attempt had never run.  (When both attempts
fail, stale canonical commits can remain — see the counterexample.) -/
theorem C5_legacy_isolation_amended :
    (∀ (σ τ : KeyBlob) (l : List Nat),
      (KeyBlob.DeserializeUnversionedBlob σ l).2 = true →
      (KeyBlob.DeserializeUnversionedBlob τ l).2 = true ∧
      (KeyBlob.DeserializeUnversionedBlob σ l).1.nonce_ =
        (KeyBlob.DeserializeUnversionedBlob τ l).1.nonce_ ∧
      (KeyBlob.DeserializeUnversionedBlob σ l).1.key_material_length_ =
        (KeyBlob.DeserializeUnversionedBlob τ l).1.key_material_length_ ∧
      (KeyBlob.DeserializeUnversionedBlob σ l).1.encrypted_key_material_ =
        (KeyBlob.DeserializeUnversionedBlob τ l).1.encrypted_key_material_ ∧
      (KeyBlob.DeserializeUnversionedBlob σ l).1.tag_ =
        (KeyBlob.DeserializeUnversionedBlob τ l).1.tag_ ∧
      (KeyBlob.DeserializeUnversionedBlob σ l).1.enforced_ =
        (KeyBlob.DeserializeUnversionedBlob τ l).1.enforced_ ∧
      (KeyBlob.DeserializeUnversionedBlob σ l).1.unenforced_ =
        (KeyBlob.DeserializeUnversionedBlob τ l).1.unenforced_) ∧
    (∀ (σ : KeyBlob) (v : Nat) (r : List Nat),
      (KeyBlob.canonicalAttempt σ v r).2 = false →
      (KeyBlob.DeserializeUnversionedBlob σ (v :: r)).2 = true →
      ∃ a, KeyBlob.Deserialize σ (v :: r) = some (a, true) ∧
        a.nonce_ = (KeyBlob.DeserializeUnversionedBlob σ (v :: r)).1.nonce_ ∧
        a.key_material_length_ =
          (KeyBlob.DeserializeUnversionedBlob σ (v :: r)).1.key_material_length_ ∧
        a.encrypted_key_material_ =
          (KeyBlob.DeserializeUnversionedBlob σ (v :: r)).1.encrypted_key_material_ ∧
        a.tag_ = (KeyBlob.DeserializeUnversionedBlob σ (v :: r)).1.tag_ ∧
        a.enforced_ = (KeyBlob.DeserializeUnversionedBlob σ (v :: r)).1.enforced_ ∧
        a.unenforced_ =
          (KeyBlob.DeserializeUnversionedBlob σ (v :: r)).1.unenforced_) := by
  constructor
  · intro σ τ l h
    obtain ⟨dr, dt, -⟩ := DeserializeUnversionedBlob_indep σ τ l
    obtain ⟨e1, e2, e3, e4, e5, e6, -, -⟩ := dt h
    exact ⟨dr.symm.trans h, e1, e2, e3, e4, e5, e6⟩
  · intro σ v r hc hl
    obtain ⟨dr, dt, -⟩ := DeserializeUnversionedBlob_indep
      (KeyBlob.canonicalAttempt σ v r).1 σ (v :: r)
    have hlp : (KeyBlob.DeserializeUnversionedBlob
        (KeyBlob.canonicalAttempt σ v r).1 (v :: r)).2 = true := by
      rw [dr]; exact hl
    obtain ⟨e1, e2, e3, e4, e5, e6, -, -⟩ := dt hlp
    rw [Deserialize_fallback σ v r hc, if_pos hlp]
    have hre := DeserializeUnversionedBlob_true_reextract
      (KeyBlob.canonicalAttempt σ v r).1 (v :: r) hlp
    obtain ⟨p1, p2, p3, p4, p5, p6, -⟩ := ExtractKeyCharacteristics_preserves
      (KeyBlob.DeserializeUnversionedBlob (KeyBlob.canonicalAttempt σ v r).1 (v :: r)).1
    refine ⟨_, congrArg some (Prod.ext rfl hre), ?_, ?_, ?_, ?_, ?_, ?_⟩
    · exact p1.trans e1
    · exact p2.trans e2
    · exact p3.trans e3
    · exact p4.trans e4
    · exact p5.trans e5
    · exact p6.trans e6

/-- C5 (counterexample): on this input the canonical attempt commits the
enforced policy set and then fails, and the legacy attempt also fails, so
the final object retains the canonical attempt's partial commit
(`enforced_ = {(5, 7)}`), which is not what the legacy parse alone leaves
behind (`enforced_ = {}`): the fields after a failed canonical attempt are
not "as if the canonical attempt had never run". -/
theorem C5_counterexample :
    (KeyBlob.Deserialize KeyBlob.init
        ([0] ++ enc32 12 ++ [0, 0, 0, 0, 0, 0, 0, 255, 255, 255, 255, 0] ++
         enc32 1 ++ [9] ++ enc32 16 ++ List.replicate 16 3 ++
         (⟨[(5, 7)]⟩ : AuthorizationSet).encoding)).map
      (fun p => (p.2, p.1.enforced_)) = some (false, ⟨[(5, 7)]⟩) ∧
    (KeyBlob.DeserializeUnversionedBlob KeyBlob.init
        ([0] ++ enc32 12 ++ [0, 0, 0, 0, 0, 0, 0, 255, 255, 255, 255, 0] ++
         enc32 1 ++ [9] ++ enc32 16 ++ List.replicate 16 3 ++
         (⟨[(5, 7)]⟩ : AuthorizationSet).encoding)).1.enforced_ = ⟨[]⟩ ∧
    (⟨[(5, 7)]⟩ : AuthorizationSet) ≠ ⟨[]⟩ := by
  refine ⟨by decide, by decide, by decide⟩

/-- C5 (witness): the state-independence clause applied at a concrete input
on which the legacy parse succeeds, started once from a pristine object and
once from an object carrying a stale error. -/
theorem C5_witness :
    (KeyBlob.DeserializeUnversionedBlob
      {KeyBlob.init with error_ := KError.KM_ERROR_INVALID_KEY_BLOB}
      (List.replicate 12 0 ++ enc32 0 ++ List.replicate 16 0 ++
       (⟨[(TAG_ALGORITHM, 1), (TAG_KEY_SIZE, 128)]⟩ : AuthorizationSet).encoding ++
       (⟨[]⟩ : AuthorizationSet).encoding)).2 = true :=
  (C5_legacy_isolation_amended.1 KeyBlob.init
    {KeyBlob.init with error_ := KError.KM_ERROR_INVALID_KEY_BLOB} _
    (by decide)).1

/-- C6 (amended): every failing `Deserialize`, `DeserializeUnversionedBlob`
or `ExtractKeyCharacteristics` call overwrites `error_` with a failure
reason — a value that is never `KM_ERROR_OK` and is determined by the call's
input, not by the error previously stored — while every successful call
leaves `error_` exactly as it found it (hence at `KM_ERROR_OK` at the real
call sites, where construction initialized it to `KM_ERROR_OK`), rather
than actively resetting it to `KM_ERROR_OK`. -/
theorem C6_error_discipline_amended :
    (∀ (σ τ : KeyBlob) (l : List Nat),
      (KeyBlob.Deserialize σ l).map Prod.snd =
        (KeyBlob.Deserialize τ l).map Prod.snd) ∧
    (∀ (σ : KeyBlob) (l : List Nat) (a : KeyBlob),
      KeyBlob.Deserialize σ l = some (a, false) →
        a.error_ ≠ KError.KM_ERROR_OK) ∧
    (∀ (σ τ : KeyBlob) (l : List Nat) (a b : KeyBlob),
      KeyBlob.Deserialize σ l = some (a, false) →
      KeyBlob.Deserialize τ l = some (b, false) → a.error_ = b.error_) ∧
    (∀ (σ : KeyBlob) (l : List Nat) (a : KeyBlob),
      KeyBlob.Deserialize σ l = some (a, true) → a.error_ = σ.error_) ∧
    (∀ (σ τ : KeyBlob) (l : List Nat),
      (KeyBlob.DeserializeUnversionedBlob σ l).2 =
        (KeyBlob.DeserializeUnversionedBlob τ l).2) ∧
    (∀ (σ : KeyBlob) (l : List Nat),
      (KeyBlob.DeserializeUnversionedBlob σ l).2 = false →
        (KeyBlob.DeserializeUnversionedBlob σ l).1.error_ ≠ KError.KM_ERROR_OK ∧
        ∀ τ, (KeyBlob.DeserializeUnversionedBlob σ l).1.error_ =
          (KeyBlob.DeserializeUnversionedBlob τ l).1.error_) ∧
    (∀ (σ : KeyBlob) (l : List Nat),
      (KeyBlob.DeserializeUnversionedBlob σ l).2 = true →
        (KeyBlob.DeserializeUnversionedBlob σ l).1.error_ = σ.error_) ∧
    (∀ (σ : KeyBlob) (e : KError),
      (KeyBlob.ExtractKeyCharacteristics {σ with error_ := e}).2 =
        (KeyBlob.ExtractKeyCharacteristics σ).2) ∧
    (∀ (σ : KeyBlob),
      (KeyBlob.ExtractKeyCharacteristics σ).2 = false →
        (KeyBlob.ExtractKeyCharacteristics σ).1.error_ ≠ KError.KM_ERROR_OK ∧
        ∀ e, (KeyBlob.ExtractKeyCharacteristics {σ with error_ := e}).1.error_ =
          (KeyBlob.ExtractKeyCharacteristics σ).1.error_) ∧
    (∀ (σ : KeyBlob),
      (KeyBlob.ExtractKeyCharacteristics σ).2 = true →
        (KeyBlob.ExtractKeyCharacteristics σ).1.error_ = σ.error_) := by
  refine ⟨?_, ?_, ?_, ?_, ?_, ?_, ?_, ?_, ?_, ?_⟩
  · intro σ τ l
    exact (Deserialize_indep σ τ l).1
  · intro σ l a h
    exact ((Deserialize_indep σ σ l).2.2 a a h h).2
  · intro σ τ l a b ha hb
    exact ((Deserialize_indep σ τ l).2.2 a b ha hb).1
  · intro σ l a h
    exact ((Deserialize_indep σ σ l).2.1 a a h h).2.2.2.2.2.2.1
  · intro σ τ l
    exact (DeserializeUnversionedBlob_indep σ τ l).1
  · intro σ l h
    refine ⟨((DeserializeUnversionedBlob_indep σ σ l).2.2 h).2, ?_⟩
    intro τ
    exact ((DeserializeUnversionedBlob_indep σ τ l).2.2 h).1
  · intro σ l h
    exact ((DeserializeUnversionedBlob_indep σ σ l).2.1 h).2.2.2.2.2.2.1
  · intro σ e
    exact (ExtractKeyCharacteristics_indep {σ with error_ := e} σ rfl rfl).1
  · intro σ h
    constructor
    · rcases ExtractKeyCharacteristics_false_error σ h with h' | h' <;> simp [h']
    · intro e
      exact (ExtractKeyCharacteristics_indep {σ with error_ := e} σ rfl rfl).2
        (((ExtractKeyCharacteristics_indep {σ with error_ := e} σ rfl rfl).1).trans h)
  · intro σ h
    exact (ExtractKeyCharacteristics_preserves σ).2.2.2.2.2.2 h

/-- C6 (counterexample): a successful `ExtractKeyCharacteristics` on an
object whose `error_` holds a previous failure leaves that stale failure in
place — the error field is not left "at the OK value" by a successful call
from an arbitrary starting state. -/
theorem C6_counterexample :
    (KeyBlob.ExtractKeyCharacteristics
      {KeyBlob.ofAuthSets ⟨[(TAG_ALGORITHM, 1), (TAG_KEY_SIZE, 128)]⟩ ⟨[]⟩ with
        error_ := KError.KM_ERROR_INVALID_KEY_BLOB}).2 = true ∧
    (KeyBlob.ExtractKeyCharacteristics
      {KeyBlob.ofAuthSets ⟨[(TAG_ALGORITHM, 1), (TAG_KEY_SIZE, 128)]⟩ ⟨[]⟩ with
        error_ := KError.KM_ERROR_INVALID_KEY_BLOB}).1.error_ =
      KError.KM_ERROR_INVALID_KEY_BLOB ∧
    KError.KM_ERROR_INVALID_KEY_BLOB ≠ KError.KM_ERROR_OK := by
  refine ⟨by decide, by decide, by decide⟩

/-- C6 (witness): the success-leaves-error-unchanged clause applied at a
concrete object carrying a stale error. -/
theorem C6_witness :
    (KeyBlob.ExtractKeyCharacteristics
      {KeyBlob.ofAuthSets ⟨[(TAG_ALGORITHM, 1), (TAG_KEY_SIZE, 128)]⟩ ⟨[]⟩ with
        error_ := KError.KM_ERROR_INVALID_KEY_BLOB}).1.error_ =
      KError.KM_ERROR_INVALID_KEY_BLOB :=
  C6_error_discipline_amended.2.2.2.2.2.2.2.2.2
    {KeyBlob.ofAuthSets ⟨[(TAG_ALGORITHM, 1), (TAG_KEY_SIZE, 128)]⟩ ⟨[]⟩ with
      error_ := KError.KM_ERROR_INVALID_KEY_BLOB} (by decide)

/-- C8: a legacy parse attempt that fails at the byte level clears the
ciphertext buffer and sets `KM_ERROR_INVALID_KEY_BLOB` (a
`DeserializeUnversionedBlob` call can otherwise only fail in its final
characteristic extraction, with an UNSUPPORTED kind); and when the canonical
attempt has failed and the legacy attempt fails too, the overall sticky
error is exactly the error the legacy attempt computes from the byte range —
never a canonical-attempt reason, which writes no error at all — and is
never `KM_ERROR_OK`. -/
theorem C8_legacy_failure_error :
    (∀ (σ : KeyBlob) (l : List Nat),
      (KeyBlob.DeserializeUnversionedBlob σ l).2 = false →
        ((KeyBlob.DeserializeUnversionedBlob σ l).1.encrypted_key_material_ = none ∧
         (KeyBlob.DeserializeUnversionedBlob σ l).1.error_ =
           KError.KM_ERROR_INVALID_KEY_BLOB) ∨
        (KeyBlob.DeserializeUnversionedBlob σ l).1.error_ =
          KError.KM_ERROR_UNSUPPORTED_ALGORITHM ∨
        (KeyBlob.DeserializeUnversionedBlob σ l).1.error_ =
          KError.KM_ERROR_UNSUPPORTED_KEY_SIZE) ∧
    (∀ (σ : KeyBlob) (v : Nat) (r : List Nat),
      (KeyBlob.canonicalAttempt σ v r).2 = false →
      (KeyBlob.DeserializeUnversionedBlob
        (KeyBlob.canonicalAttempt σ v r).1 (v :: r)).2 = false →
      KeyBlob.Deserialize σ (v :: r) =
        some ((KeyBlob.DeserializeUnversionedBlob
          (KeyBlob.canonicalAttempt σ v r).1 (v :: r)).1, false) ∧
      (KeyBlob.DeserializeUnversionedBlob
        (KeyBlob.canonicalAttempt σ v r).1 (v :: r)).1.error_ =
        (KeyBlob.DeserializeUnversionedBlob σ (v :: r)).1.error_ ∧
      (KeyBlob.DeserializeUnversionedBlob
        (KeyBlob.canonicalAttempt σ v r).1 (v :: r)).1.error_ ≠
        KError.KM_ERROR_OK) := by
  constructor
  · intro σ l
    exact DeserializeUnversionedBlob_false_cases σ l
  · intro σ v r hc hl
    obtain ⟨dr, -, df⟩ := DeserializeUnversionedBlob_indep
      (KeyBlob.canonicalAttempt σ v r).1 σ (v :: r)
    obtain ⟨fe, fok⟩ := df hl
    refine ⟨?_, fe, fok⟩
    rw [Deserialize_fallback σ v r hc, if_neg (by simp [hl])]
    exact congrArg some (Prod.ext rfl hl)

/-- C8 (witness): the clauses applied at the concrete input `[1, 2, 3]`,
whose version byte 1 fails the canonical attempt and whose three bytes
starve the legacy nonce read. -/
theorem C8_witness :
    (KeyBlob.DeserializeUnversionedBlob
      (KeyBlob.canonicalAttempt KeyBlob.init 1 [2, 3]).1 [1, 2, 3]).1.error_ ≠
      KError.KM_ERROR_OK :=
  (C8_legacy_failure_error.2 KeyBlob.init 1 [2, 3] (by decide) (by decide)).2.2

/-- Value selection of the KEY_SIZE half of extraction: enforced first,
then unenforced, else the UNSUPPORTED_KEY_SIZE failure. -/
theorem extractKeySize_values (σ : KeyBlob) :
    (∀ w, σ.enforced_.GetTagValue TAG_KEY_SIZE = some w →
      σ.extractKeySize.1.key_size_bits_ = w ∧ σ.extractKeySize.2 = true) ∧
    (∀ w, σ.enforced_.GetTagValue TAG_KEY_SIZE = none →
      σ.unenforced_.GetTagValue TAG_KEY_SIZE = some w →
      σ.extractKeySize.1.key_size_bits_ = w ∧ σ.extractKeySize.2 = true) ∧
    (σ.enforced_.GetTagValue TAG_KEY_SIZE = none →
      σ.unenforced_.GetTagValue TAG_KEY_SIZE = none →
      σ.extractKeySize =
        ({σ with error_ := KError.KM_ERROR_UNSUPPORTED_KEY_SIZE}, false)) := by
  unfold KeyBlob.extractKeySize
  cases hK : σ.enforced_.GetTagValue TAG_KEY_SIZE <;>
    cases hK2 : σ.unenforced_.GetTagValue TAG_KEY_SIZE <;>
    simp_all

/-- When the enforced set holds ALGORITHM, extraction adopts its value and
proceeds to the KEY_SIZE half. -/
theorem ExtractKeyCharacteristics_alg_enforced (σ : KeyBlob) (v : Nat)
    (h : σ.enforced_.GetTagValue TAG_ALGORITHM = some v) :
    σ.ExtractKeyCharacteristics = ({σ with algorithm_ := v}).extractKeySize := by
  unfold KeyBlob.ExtractKeyCharacteristics
  rw [h]

/-- When only the unenforced set holds ALGORITHM, extraction adopts that
value and proceeds to the KEY_SIZE half. -/
theorem ExtractKeyCharacteristics_alg_unenforced (σ : KeyBlob) (v : Nat)
    (h1 : σ.enforced_.GetTagValue TAG_ALGORITHM = none)
    (h2 : σ.unenforced_.GetTagValue TAG_ALGORITHM = some v) :
    σ.ExtractKeyCharacteristics = ({σ with algorithm_ := v}).extractKeySize := by
  unfold KeyBlob.ExtractKeyCharacteristics
  rw [h1, h2]

/-- When neither set holds ALGORITHM, extraction fails at once with the
UNSUPPORTED_ALGORITHM error. -/
theorem ExtractKeyCharacteristics_alg_none (σ : KeyBlob)
    (h1 : σ.enforced_.GetTagValue TAG_ALGORITHM = none)
    (h2 : σ.unenforced_.GetTagValue TAG_ALGORITHM = none) :
    σ.ExtractKeyCharacteristics =
      ({σ with error_ := KError.KM_ERROR_UNSUPPORTED_ALGORITHM}, false) := by
  unfold KeyBlob.ExtractKeyCharacteristics
  rw [h1, h2]

/-- C7: extraction looks ALGORITHM up in the enforced set first and in the
unenforced set only when that fails, reporting unsupported-algorithm when
both lack it; it then repeats the enforced-then-unenforced lookup for
KEY_SIZE, reporting unsupported-key-size when both lack it; the ALGORITHM
check precedes the KEY_SIZE check, so an object missing both attributes
reports unsupported algorithm. -/
theorem C7_extract_lookup_order (σ : KeyBlob) :
    (σ.enforced_.GetTagValue TAG_ALGORITHM = none →
     σ.unenforced_.GetTagValue TAG_ALGORITHM = none →
     σ.ExtractKeyCharacteristics =
       ({σ with error_ := KError.KM_ERROR_UNSUPPORTED_ALGORITHM}, false)) ∧
    (∀ v, σ.enforced_.GetTagValue TAG_ALGORITHM = some v →
      σ.ExtractKeyCharacteristics.1.algorithm_ = v) ∧
    (∀ v, σ.enforced_.GetTagValue TAG_ALGORITHM = none →
      σ.unenforced_.GetTagValue TAG_ALGORITHM = some v →
      σ.ExtractKeyCharacteristics.1.algorithm_ = v) ∧
    (((σ.enforced_.GetTagValue TAG_ALGORITHM).isSome = true ∨
       (σ.unenforced_.GetTagValue TAG_ALGORITHM).isSome = true) →
     σ.enforced_.GetTagValue TAG_KEY_SIZE = none →
     σ.unenforced_.GetTagValue TAG_KEY_SIZE = none →
     σ.ExtractKeyCharacteristics.2 = false ∧
     σ.ExtractKeyCharacteristics.1.error_ =
       KError.KM_ERROR_UNSUPPORTED_KEY_SIZE) ∧
    (∀ w, ((σ.enforced_.GetTagValue TAG_ALGORITHM).isSome = true ∨
       (σ.unenforced_.GetTagValue TAG_ALGORITHM).isSome = true) →
      σ.enforced_.GetTagValue TAG_KEY_SIZE = some w →
      σ.ExtractKeyCharacteristics.1.key_size_bits_ = w ∧
      σ.ExtractKeyCharacteristics.2 = true) ∧
    (∀ w, ((σ.enforced_.GetTagValue TAG_ALGORITHM).isSome = true ∨
       (σ.unenforced_.GetTagValue TAG_ALGORITHM).isSome = true) →
      σ.enforced_.GetTagValue TAG_KEY_SIZE = none →
      σ.unenforced_.GetTagValue TAG_KEY_SIZE = some w →
      σ.ExtractKeyCharacteristics.1.key_size_bits_ = w ∧
      σ.ExtractKeyCharacteristics.2 = true) := by
  refine ⟨?_, ?_, ?_, ?_, ?_, ?_⟩
  · exact ExtractKeyCharacteristics_alg_none σ
  · intro v hv
    rw [ExtractKeyCharacteristics_alg_enforced σ v hv]
    exact (extractKeySize_preserves {σ with algorithm_ := v}).2.2.2.2.2.2.1
  · intro v h1 h2
    rw [ExtractKeyCharacteristics_alg_unenforced σ v h1 h2]
    exact (extractKeySize_preserves {σ with algorithm_ := v}).2.2.2.2.2.2.1
  · intro hA hK1 hK2
    have step : ∀ v, σ.ExtractKeyCharacteristics =
        ({σ with algorithm_ := v}).extractKeySize →
        σ.ExtractKeyCharacteristics.2 = false ∧
        σ.ExtractKeyCharacteristics.1.error_ =
          KError.KM_ERROR_UNSUPPORTED_KEY_SIZE := by
      intro v h
      rw [h, (extractKeySize_values {σ with algorithm_ := v}).2.2 hK1 hK2]
      exact ⟨rfl, rfl⟩
    rcases hAe : σ.enforced_.GetTagValue TAG_ALGORITHM with - | v
    · rcases hAu : σ.unenforced_.GetTagValue TAG_ALGORITHM with - | v
      · rcases hA with h | h <;> simp [hAe, hAu] at h
      · exact step v (ExtractKeyCharacteristics_alg_unenforced σ v hAe hAu)
    · exact step v (ExtractKeyCharacteristics_alg_enforced σ v hAe)
  · intro w hA hKw
    have step : ∀ v, σ.ExtractKeyCharacteristics =
        ({σ with algorithm_ := v}).extractKeySize →
        σ.ExtractKeyCharacteristics.1.key_size_bits_ = w ∧
        σ.ExtractKeyCharacteristics.2 = true := by
      intro v h
      rw [h]
      exact (extractKeySize_values {σ with algorithm_ := v}).1 w hKw
    rcases hAe : σ.enforced_.GetTagValue TAG_ALGORITHM with - | v
    · rcases hAu : σ.unenforced_.GetTagValue TAG_ALGORITHM with - | v
      · rcases hA with h | h <;> simp [hAe, hAu] at h
      · exact step v (ExtractKeyCharacteristics_alg_unenforced σ v hAe hAu)
    · exact step v (ExtractKeyCharacteristics_alg_enforced σ v hAe)
  · intro w hA hK1 hKw
    have step : ∀ v, σ.ExtractKeyCharacteristics =
        ({σ with algorithm_ := v}).extractKeySize →
        σ.ExtractKeyCharacteristics.1.key_size_bits_ = w ∧
        σ.ExtractKeyCharacteristics.2 = true := by
      intro v h
      rw [h]
      exact (extractKeySize_values {σ with algorithm_ := v}).2.1 w hK1 hKw
    rcases hAe : σ.enforced_.GetTagValue TAG_ALGORITHM with - | v
    · rcases hAu : σ.unenforced_.GetTagValue TAG_ALGORITHM with - | v
      · rcases hA with h | h <;> simp [hAe, hAu] at h
      · exact step v (ExtractKeyCharacteristics_alg_unenforced σ v hAe hAu)
    · exact step v (ExtractKeyCharacteristics_alg_enforced σ v hAe)

/-- C7 (witness): the lookup-order clauses applied at a concrete object
whose enforced set holds ALGORITHM = 1 and KEY_SIZE = 128. -/
theorem C7_witness :
    (KeyBlob.ExtractKeyCharacteristics
      (KeyBlob.ofAuthSets ⟨[(TAG_ALGORITHM, 1), (TAG_KEY_SIZE, 128)]⟩ ⟨[]⟩)).1.algorithm_ =
      1 ∧
    (KeyBlob.ExtractKeyCharacteristics
      (KeyBlob.ofAuthSets ⟨[]⟩ ⟨[]⟩)).1.error_ =
      KError.KM_ERROR_UNSUPPORTED_ALGORITHM :=
  ⟨(C7_extract_lookup_order
      (KeyBlob.ofAuthSets ⟨[(TAG_ALGORITHM, 1), (TAG_KEY_SIZE, 128)]⟩ ⟨[]⟩)).2.1 1
      (by decide),
   by rw [(C7_extract_lookup_order (KeyBlob.ofAuthSets ⟨[]⟩ ⟨[]⟩)).1
      (by decide) (by decide)]⟩

/-- C1: an input matching the canonical layout (version byte 0,
nonce-length field decoding to NONCE_LENGTH, tag-length field decoding to
TAG_LENGTH, both policy sets parsing, each buffer fully present) is parsed
canonically and never reaches the legacy path; an input whose first byte is
not 0, or whose nonce-length field does not decode to NONCE_LENGTH, makes
the canonical attempt fail, whereupon `Deserialize` rewinds to the start of
the range and hands the full range to `DeserializeUnversionedBlob`. -/
theorem C1_canonical_first_legacy_fallback :
    (∀ (σ : KeyBlob) (nv ct tg extra : List Nat) (E U : AuthorizationSet),
      nv.length = NONCE_LENGTH → ct.length < 4294967296 →
      tg.length = TAG_LENGTH → E.wf → U.wf →
      (KeyBlob.canonicalAttempt σ BLOB_VERSION
        (enc32 NONCE_LENGTH ++ nv ++ enc32 ct.length ++ ct ++
         enc32 TAG_LENGTH ++ tg ++ E.encoding ++ (U.encoding ++ extra))).2 = true ∧
      KeyBlob.Deserialize σ (BLOB_VERSION ::
        (enc32 NONCE_LENGTH ++ nv ++ enc32 ct.length ++ ct ++
         enc32 TAG_LENGTH ++ tg ++ E.encoding ++ (U.encoding ++ extra))) =
        some (KeyBlob.ExtractKeyCharacteristics
          {σ with nonce_ := some nv, key_material_length_ := ct.length,
                  encrypted_key_material_ := some ct, tag_ := some tg,
                  enforced_ := E, unenforced_ := U})) ∧
    (∀ (σ : KeyBlob) (v : Nat) (r : List Nat), v ≠ BLOB_VERSION →
      (KeyBlob.canonicalAttempt σ v r).2 = false ∧
      KeyBlob.Deserialize σ (v :: r) =
        some (if (KeyBlob.DeserializeUnversionedBlob σ (v :: r)).2 = true
              then KeyBlob.ExtractKeyCharacteristics
                (KeyBlob.DeserializeUnversionedBlob σ (v :: r)).1
              else KeyBlob.DeserializeUnversionedBlob σ (v :: r))) ∧
    (∀ (σ : KeyBlob) (b0 b1 b2 b3 : Nat) (rest : List Nat),
      dec4 b0 b1 b2 b3 ≠ NONCE_LENGTH →
      (KeyBlob.canonicalAttempt σ BLOB_VERSION
        (b0 :: b1 :: b2 :: b3 :: rest)).2 = false ∧
      KeyBlob.Deserialize σ (BLOB_VERSION :: b0 :: b1 :: b2 :: b3 :: rest) =
        some (if (KeyBlob.DeserializeUnversionedBlob
                (KeyBlob.canonicalAttempt σ BLOB_VERSION
                  (b0 :: b1 :: b2 :: b3 :: rest)).1
                (BLOB_VERSION :: b0 :: b1 :: b2 :: b3 :: rest)).2 = true
              then KeyBlob.ExtractKeyCharacteristics
                (KeyBlob.DeserializeUnversionedBlob
                  (KeyBlob.canonicalAttempt σ BLOB_VERSION
                    (b0 :: b1 :: b2 :: b3 :: rest)).1
                  (BLOB_VERSION :: b0 :: b1 :: b2 :: b3 :: rest)).1
              else KeyBlob.DeserializeUnversionedBlob
                (KeyBlob.canonicalAttempt σ BLOB_VERSION
                  (b0 :: b1 :: b2 :: b3 :: rest)).1
                (BLOB_VERSION :: b0 :: b1 :: b2 :: b3 :: rest))) := by
  refine ⟨?_, ?_, ?_⟩
  · intro σ nv ct tg extra E U hn hct ht hE hU
    have h := canonicalAttempt_encoding σ nv ct tg extra E U hn hct ht hE hU
    constructor
    · rw [h]
    · rw [Deserialize_canonical _ _ _ (by rw [h]), h]
  · intro σ v r hv
    have hne := canonicalAttempt_version_ne σ v r hv
    constructor
    · rw [hne]
    · rw [Deserialize_fallback σ v r (by rw [hne]), hne]
  · intro σ b0 b1 b2 b3 rest hb
    have h := canonicalAttempt_nonce_field_ne σ b0 b1 b2 b3 rest hb
    exact ⟨h, Deserialize_fallback σ BLOB_VERSION _ h⟩

/-- C1 (witness): the canonical clause at a concrete minimal canonical blob
and the fallback clause at a concrete input with version byte 1. -/
theorem C1_witness :
    (KeyBlob.canonicalAttempt KeyBlob.init BLOB_VERSION
      (enc32 NONCE_LENGTH ++ List.replicate 12 0 ++
       enc32 (List.length ([] : List Nat)) ++ [] ++
       enc32 TAG_LENGTH ++ List.replicate 16 0 ++
       (⟨[]⟩ : AuthorizationSet).encoding ++
       ((⟨[]⟩ : AuthorizationSet).encoding ++ []))).2 = true ∧
    (KeyBlob.canonicalAttempt KeyBlob.init 1 [2, 3]).2 = false :=
  ⟨(C1_canonical_first_legacy_fallback.1 KeyBlob.init (List.replicate 12 0) []
      (List.replicate 16 0) [] ⟨[]⟩ ⟨[]⟩ (by decide) (by decide) (by decide)
      (by decide) (by decide)).1,
   (C1_canonical_first_legacy_fallback.2.1 KeyBlob.init 1 [2, 3] (by decide)).1⟩

/-- `canonicalAttempt_encoding` specialized to a range holding nothing after
the canonical layout. -/
theorem canonicalAttempt_encoding_nil (σ : KeyBlob) (nv ct tg : List Nat)
    (E U : AuthorizationSet)
    (hn : nv.length = NONCE_LENGTH) (hct : ct.length < 4294967296)
    (ht : tg.length = TAG_LENGTH) (hE : E.wf) (hU : U.wf) :
    KeyBlob.canonicalAttempt σ BLOB_VERSION
      (enc32 NONCE_LENGTH ++ nv ++ enc32 ct.length ++ ct ++
       enc32 TAG_LENGTH ++ tg ++ E.encoding ++ U.encoding) =
      ({σ with nonce_ := some nv, key_material_length_ := ct.length,
               encrypted_key_material_ := some ct, tag_ := some tg,
               enforced_ := E, unenforced_ := U}, true) := by
  have h := canonicalAttempt_encoding σ nv ct tg [] E U hn hct ht hE hU
  simpa using h

/-- C2 (amended): for a KeyBlob built from two policy sets and given, via
`SetEncryptedKey`, a ciphertext whose length fits the 4-byte wire length
field, a nonce of exactly NONCE_LENGTH bytes and a tag of exactly
TAG_LENGTH bytes — with both policy sets wire-representable and jointly
carrying ALGORITHM and KEY_SIZE (which `Deserialize` demands after parsing)
— deserializing the serialized bytes from any starting object succeeds and
reproduces the nonce, ciphertext, ciphertext length, tag and both policy
sets exactly. -/
theorem C2_roundtrip_amended (σ0 : KeyBlob) (E U : AuthorizationSet)
    (ekm nv tv : List Nat)
    (hn : nv.length = NONCE_LENGTH) (ht : tv.length = TAG_LENGTH)
    (hk : ekm.length < 4294967296) (hE : E.wf) (hU : U.wf)
    (hA : (E.GetTagValue TAG_ALGORITHM).isSome = true ∨
      (U.GetTagValue TAG_ALGORITHM).isSome = true)
    (hK : (E.GetTagValue TAG_KEY_SIZE).isSome = true ∨
      (U.GetTagValue TAG_KEY_SIZE).isSome = true) :
    ∃ σ', KeyBlob.Deserialize σ0
        (((KeyBlob.ofAuthSets E U).SetEncryptedKey ekm ekm.length nv tv).SerializeBytes) =
        some (σ', true) ∧
      σ'.nonce_ = some nv ∧ σ'.key_material_length_ = ekm.length ∧
      σ'.encrypted_key_material_ = some ekm ∧ σ'.tag_ = some tv ∧
      σ'.enforced_ = E ∧ σ'.unenforced_ = U := by
  have hB : (((KeyBlob.ofAuthSets E U).SetEncryptedKey ekm ekm.length nv tv).SerializeBytes) =
      BLOB_VERSION :: (enc32 NONCE_LENGTH ++ nv ++ enc32 ekm.length ++ ekm ++
        enc32 TAG_LENGTH ++ tv ++ E.encoding ++ U.encoding) := by
    simp [KeyBlob.SerializeBytes, KeyBlob.SetEncryptedKey, KeyBlob.ofAuthSets]
  have hc := canonicalAttempt_encoding_nil σ0 nv ekm tv E U hn hk ht hE hU
  rw [hB, Deserialize_canonical _ _ _ (by rw [hc]), hc]
  refine ⟨_, congrArg some (Prod.ext rfl ?_), ?_, ?_, ?_, ?_, ?_, ?_⟩
  · exact (ExtractKeyCharacteristics_true _ (by simpa using hA) (by simpa using hK)).1
  · exact (ExtractKeyCharacteristics_preserves _).1
  · exact (ExtractKeyCharacteristics_preserves _).2.1
  · exact (ExtractKeyCharacteristics_preserves _).2.2.1
  · exact (ExtractKeyCharacteristics_preserves _).2.2.2.1
  · exact (ExtractKeyCharacteristics_preserves _).2.2.2.2.1
  · exact (ExtractKeyCharacteristics_preserves _).2.2.2.2.2.1

/-- C2 (counterexamples): first, a blob whose policy sets lack ALGORITHM and
KEY_SIZE serializes fine but `Deserialize` on the result returns failure
(characteristic extraction fails), so the round trip does not "succeed" for
arbitrary policy sets; second, a policy entry whose attribute id overflows
the 4-byte wire field is truncated by serialization, so the reparsed
enforced set differs from the original — the round trip does not reproduce
equivalent policy sets for arbitrary (non-wire-representable) entries. -/
theorem C2_counterexample :
    (KeyBlob.Deserialize KeyBlob.init
        (((KeyBlob.ofAuthSets ⟨[]⟩ ⟨[]⟩).SetEncryptedKey [1, 2, 3] 3
          (List.replicate 12 0) (List.replicate 16 0)).SerializeBytes)).map
      Prod.snd = some false ∧
    (KeyBlob.Deserialize KeyBlob.init
        (((KeyBlob.ofAuthSets
            ⟨[(4294967296 + TAG_ALGORITHM, 32), (TAG_KEY_SIZE, 128)]⟩
            ⟨[]⟩).SetEncryptedKey [] 0
          (List.replicate 12 0) (List.replicate 16 0)).SerializeBytes)).map
      (fun p => (p.2, p.1.enforced_)) =
      some (true, ⟨[(TAG_ALGORITHM, 32), (TAG_KEY_SIZE, 128)]⟩) ∧
    (⟨[(4294967296 + TAG_ALGORITHM, 32), (TAG_KEY_SIZE, 128)]⟩ : AuthorizationSet) ≠
      ⟨[(TAG_ALGORITHM, 32), (TAG_KEY_SIZE, 128)]⟩ := by
  refine ⟨by decide, by decide, by decide⟩

/-- C2 (witness): the amended round trip at a concrete blob — two policy
entries, a 2-byte ciphertext, a 12-byte nonce and a 16-byte tag. -/
theorem C2_witness :
    (KeyBlob.Deserialize KeyBlob.init
        (((KeyBlob.ofAuthSets ⟨[(TAG_ALGORITHM, 1), (TAG_KEY_SIZE, 128)]⟩
            ⟨[(7, 9)]⟩).SetEncryptedKey [170, 170] (List.length [170, 170])
          (List.replicate 12 4) (List.replicate 16 5)).SerializeBytes)).map
      Prod.snd = some true := by
  obtain ⟨σ', h1, -⟩ := C2_roundtrip_amended KeyBlob.init
    ⟨[(TAG_ALGORITHM, 1), (TAG_KEY_SIZE, 128)]⟩ ⟨[(7, 9)]⟩
    [170, 170] (List.replicate 12 4) (List.replicate 16 5)
    (by decide) (by decide) (by decide) (by decide) (by decide)
    (Or.inl (by decide)) (Or.inl (by decide))
  rw [h1]
  rfl

/-- C4 (amended): truncating a serialized blob at any byte boundary after
the version byte makes the canonical parse attempt fail, so `Deserialize`
always falls back to the legacy parser on such a truncation; when the
overall call then fails, the sticky error is the invalid-blob kind or — if
the legacy attempt happened to parse the bytes — one of the UNSUPPORTED
kinds from characteristic extraction.  (Overall failure itself is not
guaranteed: crafted nonce/ciphertext bytes can make the legacy attempt
succeed on a truncation — see the counterexample — and the empty truncation
instead triggers the unchecked version-byte read of C10.) -/
theorem C4_truncation_amended (σ : KeyBlob) (E U : AuthorizationSet)
    (ekm nv tv : List Nat) (j : Nat)
    (hn : nv.length = NONCE_LENGTH) (ht : tv.length = TAG_LENGTH)
    (hk : ekm.length < 4294967296) (hE : E.wf) (hU : U.wf)
    (hj : j + 1 <
      (((KeyBlob.ofAuthSets E U).SetEncryptedKey ekm ekm.length nv tv).SerializeBytes).length) :
    ((((KeyBlob.ofAuthSets E U).SetEncryptedKey ekm ekm.length nv tv).SerializeBytes).take (j + 1) =
      BLOB_VERSION :: ((enc32 NONCE_LENGTH ++ (nv ++ (enc32 ekm.length ++ (ekm ++
        (enc32 TAG_LENGTH ++ (tv ++ (E.encoding ++ U.encoding))))))).take j)) ∧
    (KeyBlob.canonicalAttempt σ BLOB_VERSION
      ((enc32 NONCE_LENGTH ++ (nv ++ (enc32 ekm.length ++ (ekm ++
        (enc32 TAG_LENGTH ++ (tv ++ (E.encoding ++ U.encoding))))))).take j)).2 =
      false ∧
    (∀ a, KeyBlob.Deserialize σ
        ((((KeyBlob.ofAuthSets E U).SetEncryptedKey ekm ekm.length nv tv).SerializeBytes).take (j + 1)) =
        some (a, false) →
      a.error_ = KError.KM_ERROR_INVALID_KEY_BLOB ∨
      a.error_ = KError.KM_ERROR_UNSUPPORTED_ALGORITHM ∨
      a.error_ = KError.KM_ERROR_UNSUPPORTED_KEY_SIZE) := by
  have hB : (((KeyBlob.ofAuthSets E U).SetEncryptedKey ekm ekm.length nv tv).SerializeBytes) =
      BLOB_VERSION :: (enc32 NONCE_LENGTH ++ (nv ++ (enc32 ekm.length ++ (ekm ++
        (enc32 TAG_LENGTH ++ (tv ++ (E.encoding ++ U.encoding))))))) := by
    simp [KeyBlob.SerializeBytes, KeyBlob.SetEncryptedKey, KeyBlob.ofAuthSets,
      List.append_assoc]
  have hc0 : (((KeyBlob.ofAuthSets E U).SetEncryptedKey ekm ekm.length nv tv).SerializeBytes).take (j + 1) =
      BLOB_VERSION :: ((enc32 NONCE_LENGTH ++ (nv ++ (enc32 ekm.length ++ (ekm ++
        (enc32 TAG_LENGTH ++ (tv ++ (E.encoding ++ U.encoding))))))).take j) := by
    rw [hB, List.take_succ_cons]
  have hj' : j < 40 + ekm.length + E.encoding.length + U.encoding.length := by
    rw [hB] at hj
    simp only [List.length_cons, List.length_append, enc32_length, hn, ht,
      NONCE_LENGTH, TAG_LENGTH] at hj
    omega
  have hc1 := canonicalAttempt_take_false σ nv ekm tv E U j hn hk ht hE hU hj'
  refine ⟨hc0, hc1, ?_⟩
  intro a ha
  rw [hc0, Deserialize_fallback _ _ _ hc1] at ha
  by_cases hp : (KeyBlob.DeserializeUnversionedBlob
      (KeyBlob.canonicalAttempt σ BLOB_VERSION
        ((enc32 NONCE_LENGTH ++ (nv ++ (enc32 ekm.length ++ (ekm ++
          (enc32 TAG_LENGTH ++ (tv ++ (E.encoding ++ U.encoding))))))).take j)).1
      (BLOB_VERSION :: ((enc32 NONCE_LENGTH ++ (nv ++ (enc32 ekm.length ++ (ekm ++
        (enc32 TAG_LENGTH ++ (tv ++ (E.encoding ++ U.encoding))))))).take j))).2 = true
  · rw [if_pos hp] at ha
    have haa := (Option.some.injEq _ _).mp ha
    have ha1 : a = _ := (congrArg Prod.fst haa).symm
    have ha2 := congrArg Prod.snd haa
    dsimp only at ha1 ha2
    subst ha1
    exact Or.inr (ExtractKeyCharacteristics_false_error _ ha2)
  · rw [if_neg hp] at ha
    have haa := (Option.some.injEq _ _).mp ha
    have ha1 : a = _ := (congrArg Prod.fst haa).symm
    have ha2 := congrArg Prod.snd haa
    dsimp only at ha2
    subst ha1
    rcases DeserializeUnversionedBlob_false_cases _ _ ha2 with ⟨-, h⟩ | h | h
    · exact Or.inl h
    · exact Or.inr (Or.inl h)
    · exact Or.inr (Or.inr h)

/-- C4 (counterexample): a valid 100-byte blob — crafted nonce bytes whose
positions 7..10 are zero and a ciphertext embedding a policy-set pair —
deserializes successfully in full, yet its proper 56-byte truncation ALSO
deserializes successfully (the canonical attempt fails on the truncation
and the legacy fallback then parses it), so truncation does not always make
`Deserialize` fail. -/
theorem C4_counterexample :
    (((KeyBlob.ofAuthSets ⟨[(TAG_ALGORITHM, 32), (TAG_KEY_SIZE, 128)]⟩
        ⟨[]⟩).SetEncryptedKey
        (List.replicate 11 0 ++
         (⟨[(TAG_ALGORITHM, 1), (TAG_KEY_SIZE, 64)]⟩ : AuthorizationSet).encoding ++
         (⟨[]⟩ : AuthorizationSet).encoding) 35
        [1, 2, 3, 4, 5, 6, 7, 0, 0, 0, 0, 8]
        (List.replicate 16 9)).SerializeBytes).length = 100 ∧
    (KeyBlob.Deserialize KeyBlob.init
        (((KeyBlob.ofAuthSets ⟨[(TAG_ALGORITHM, 32), (TAG_KEY_SIZE, 128)]⟩
          ⟨[]⟩).SetEncryptedKey
          (List.replicate 11 0 ++
           (⟨[(TAG_ALGORITHM, 1), (TAG_KEY_SIZE, 64)]⟩ : AuthorizationSet).encoding ++
           (⟨[]⟩ : AuthorizationSet).encoding) 35
          [1, 2, 3, 4, 5, 6, 7, 0, 0, 0, 0, 8]
          (List.replicate 16 9)).SerializeBytes)).map Prod.snd = some true ∧
    (KeyBlob.Deserialize KeyBlob.init
        ((((KeyBlob.ofAuthSets ⟨[(TAG_ALGORITHM, 32), (TAG_KEY_SIZE, 128)]⟩
          ⟨[]⟩).SetEncryptedKey
          (List.replicate 11 0 ++
           (⟨[(TAG_ALGORITHM, 1), (TAG_KEY_SIZE, 64)]⟩ : AuthorizationSet).encoding ++
           (⟨[]⟩ : AuthorizationSet).encoding) 35
          [1, 2, 3, 4, 5, 6, 7, 0, 0, 0, 0, 8]
          (List.replicate 16 9)).SerializeBytes).take 56)).map Prod.snd =
      some true ∧
    (56 : Nat) < 100 := by
  refine ⟨by decide, by decide, by decide, by decide⟩

/-- C4 (witness): the amended truncation clauses applied to a concrete blob
truncated five bytes into its body. -/
theorem C4_witness :
    (KeyBlob.canonicalAttempt KeyBlob.init BLOB_VERSION
      ((enc32 NONCE_LENGTH ++ (List.replicate 12 0 ++ (enc32 (List.length ([] : List Nat)) ++ (([] : List Nat) ++
        (enc32 TAG_LENGTH ++ (List.replicate 16 0 ++
          ((⟨[(TAG_ALGORITHM, 1), (TAG_KEY_SIZE, 128)]⟩ : AuthorizationSet).encoding ++
           (⟨[]⟩ : AuthorizationSet).encoding))))))).take 5)).2 = false :=
  (C4_truncation_amended KeyBlob.init ⟨[(TAG_ALGORITHM, 1), (TAG_KEY_SIZE, 128)]⟩ ⟨[]⟩
    [] (List.replicate 12 0) (List.replicate 16 0) 5 (by decide) (by decide)
    (by decide) (by decide) (by decide) (by decide)).2.1

end Keymaster
